import Mathlib

/-!
Verification of the rtnetlink message codec (jsimonetti/rtnetlink).

This file gives a shallow embedding of the repository's binary message
codec: the netlink TLV attribute layer (mdlayher/netlink v1.7.2, the
pinned dependency through which every message variant encodes and
decodes its attribute lists), the Link / Address / Route / Neighbor
message variants with their `MarshalBinary` / `UnmarshalBinary`
methods, the multipath next-hop sub-codec of Route messages, and the
batch unpacker of `conn.go`.

Go conventions are modelled as follows: a `[]byte` is a `List (Fin
256)`; machine integers are `Nat` with explicit `% 2^w` at the points
where Go performs a width conversion; a fallible method returns `Res α`
whose `crash` constructor stands for a Go runtime panic (an
out-of-range index or slice expression); a method with a pointer
receiver takes the receiver as an argument and returns the updated
value.
-/

set_option maxHeartbeats 1000000

namespace Rtnetlink

/-- A Go byte. -/
abbrev Byte := Fin 256

/-- A Go byte slice, tracked by its logical length (reads beyond the
length are out of the buffer's bounds). -/
abbrev Bytes := List Byte

/-- Conversion of a machine integer to a stored byte (Go's implicit
truncation to `uint8` width). -/
def byte (n : Nat) : Byte := Fin.ofNat n

@[simp] theorem byte_val (n : Nat) : (byte n).val = n % 256 := rfl

/-- `nlenc.Uint16`: little-endian 16-bit read from the head of a slice. -/
def read16 : Bytes → Nat
  | b0 :: b1 :: _ => b0.val + 256 * b1.val
  | [b0] => b0.val
  | [] => 0

/-- `nlenc.Uint32`: little-endian 32-bit read from the head of a slice. -/
def read32 : Bytes → Nat
  | b0 :: b1 :: b2 :: b3 :: _ =>
    b0.val + 256 * b1.val + 65536 * b2.val + 16777216 * b3.val
  | b0 :: b1 :: b2 :: _ => b0.val + 256 * b1.val + 65536 * b2.val
  | b0 :: b1 :: _ => b0.val + 256 * b1.val
  | [b0] => b0.val
  | [] => 0

/-- `nlenc.PutUint16` / `nlenc.Uint16Bytes`: little-endian 16-bit write. -/
def put16 (n : Nat) : Bytes := [byte n, byte (n / 256)]

/-- `nlenc.PutUint32` / `nlenc.Uint32Bytes`: little-endian 32-bit write. -/
def put32 (n : Nat) : Bytes :=
  [byte n, byte (n / 256), byte (n / 65536), byte (n / 16777216)]

@[simp] theorem length_put16 (n : Nat) : (put16 n).length = 2 := rfl

@[simp] theorem length_put32 (n : Nat) : (put32 n).length = 4 := rfl

theorem read16_put16_append (n : Nat) (r : Bytes) :
    read16 (put16 n ++ r) = n % 65536 := by
  show n % 256 + 256 * (n / 256 % 256) = n % 65536
  rw [show (65536 : Nat) = 256 * 256 from rfl, Nat.mod_mul]

theorem read32_put32_append (n : Nat) (r : Bytes) :
    read32 (put32 n ++ r) = n % 4294967296 := by
  show n % 256 + 256 * (n / 256 % 256) + 65536 * (n / 65536 % 256)
      + 16777216 * (n / 16777216 % 256) = n % 4294967296
  rw [show (4294967296 : Nat) = 256 * (256 * (256 * 256)) from rfl, Nat.mod_mul,
    Nat.mod_mul, Nat.mod_mul]
  ring_nf
  rw [Nat.div_div_eq_div_mul, Nat.div_div_eq_div_mul]
  ring_nf

theorem read32_put32 (n : Nat) : read32 (put32 n) = n % 4294967296 := by
  have := read32_put32_append n []
  simpa using this

/-- The error values surfaced by the codec (each constructor is one
distinct Go `error` value). -/
inductive RtErr where
  /-- `errInvalidAttribute` of the netlink library: malformed TLV framing. -/
  | invalidAttributeData
  /-- the netlink `AttributeDecoder.Uint32` width-mismatch error. -/
  | attrNotUint32
  /-- `errInvalidRouteMessage` -/
  | invalidRouteMessage
  /-- `errInvalidRouteMessageAttr` -/
  | invalidRouteMessageAttr
  /-- `errInvalidAddressMessage` -/
  | invalidAddressMessage
  /-- `errInvalidAddressMessageAttr` -/
  | invalidAddressMessageAttr
  /-- `errInvalidNeighMessage` -/
  | invalidNeighMessage
  /-- `errInvalidNeighMessageAttr` -/
  | invalidNeighMessageAttr
  /-- `fmt.Errorf("incorrect size, want: 16, got: %d", len(b))` -/
  | cacheInfoSize (got : Nat)
  deriving DecidableEq, Repr

/-- Outcome of a fallible Go function: a value, a returned `error`, or a
runtime panic (`crash`), which in this codec can only arise from an
out-of-range index or slice expression. -/
inductive Res (α : Type) where
  | ok : α → Res α
  | err : RtErr → Res α
  | crash : Res α
  deriving DecidableEq, Repr

namespace Res

def bind {α β : Type} : Res α → (α → Res β) → Res β
  | ok a, f => f a
  | err e, _ => err e
  | crash, _ => crash

instance : Monad Res where
  pure := ok
  bind := bind

@[simp] theorem bind_ok {α β : Type} (a : α) (f : α → Res β) :
    bind (ok a) f = f a := rfl

@[simp] theorem bind_err {α β : Type} (e : RtErr) (f : α → Res β) :
    bind (err e) f = err e := rfl

@[simp] theorem bind_crash {α β : Type} (f : α → Res β) :
    bind crash f = crash := rfl

end Res

/-- A parsed netlink attribute (`netlink.Attribute`): the 16-bit type
as stored on the wire and the value bytes (the stored length field is
implied: header plus unpadded value). -/
structure NAttr where
  typ : Nat
  data : Bytes
  deriving DecidableEq, Repr

/-- Number of zero bytes required to pad a value of `n` bytes to a
4-byte boundary. -/
def padding4 (n : Nat) : Nat := (4 - n % 4) % 4

/-- `nlaAlign`: `n` rounded up to a multiple of 4. -/
def align4 (n : Nat) : Nat := n + padding4 n

/-- One attribute as `netlink.MarshalAttributes` emits it:
`u16 length (header+value, unpadded) | u16 type | value | zero padding
to a 4-byte boundary`, all little-endian. -/
def serializeAttr (a : NAttr) : Bytes :=
  put16 (4 + a.data.length) ++ put16 a.typ ++ a.data
    ++ List.replicate (padding4 a.data.length) 0

/-- `netlink.MarshalAttributes` / `AttributeEncoder.Encode`: the
concatenation of the serialized attributes. -/
def serializeAttrs (attrs : List NAttr) : Bytes :=
  (attrs.map serializeAttr).flatten

@[simp] theorem serializeAttrs_nil : serializeAttrs [] = [] := rfl

@[simp] theorem serializeAttrs_cons (a : NAttr) (l : List NAttr) :
    serializeAttrs (a :: l) = serializeAttr a ++ serializeAttrs l := rfl

theorem length_serializeAttr (a : NAttr) :
    (serializeAttr a).length = 4 + a.data.length + padding4 a.data.length := by
  simp [serializeAttr]
  omega

/-- `unpackAttributes` of the netlink library, fuel-indexed for
structural recursion (the fuel is set to the buffer length by
`parseAttrs`, which always suffices since every step consumes at least
four bytes).  Each step requires at least a 4-byte header, a declared
length of at least 4 that does not extend past the remaining buffer,
extracts the unpadded value, and advances the cursor over the value
and its padding. -/
def parseAttrsF : Nat → Bytes → Res (List NAttr)
  | _, [] => .ok []
  | 0, _ :: _ => .err .invalidAttributeData
  | fuel + 1, b0 :: brest =>
    let b := b0 :: brest
    if b.length < 4 then .err .invalidAttributeData
    else
      let l := read16 b
      if l < 4 ∨ b.length < l then .err .invalidAttributeData
      else
        (parseAttrsF fuel (b.drop (min (align4 l) b.length))).bind fun rest =>
          .ok (⟨read16 (b.drop 2), (b.drop 4).take (l - 4)⟩ :: rest)

/-- `netlink.NewAttributeDecoder` / `netlink.UnmarshalAttributes`:
parse a buffer into its attribute list. -/
def parseAttrs (b : Bytes) : Res (List NAttr) := parseAttrsF b.length b

@[simp] theorem parseAttrsF_nil (fuel : Nat) : parseAttrsF fuel [] = .ok [] := by
  cases fuel <;> rfl

@[simp] theorem parseAttrs_nil : parseAttrs [] = .ok [] := rfl

theorem parseAttrsF_succ_ne_nil (fuel : Nat) (b : Bytes) (h : b ≠ []) :
    parseAttrsF (fuel + 1) b =
      (if b.length < 4 then .err .invalidAttributeData
      else
        let l := read16 b
        if l < 4 ∨ b.length < l then .err .invalidAttributeData
        else
          (parseAttrsF fuel (b.drop (min (align4 l) b.length))).bind fun rest =>
            .ok (⟨read16 (b.drop 2), (b.drop 4).take (l - 4)⟩ :: rest)) := by
  cases b with
  | nil => exact absurd rfl h
  | cons b0 brest => rfl

theorem padding4_add4 (d : Nat) : padding4 (4 + d) = padding4 d := by
  simp [padding4, Nat.add_mod_left]

theorem serializeAttr_eq (a : NAttr) :
    serializeAttr a =
      put16 (4 + a.data.length) ++ (put16 a.typ ++ (a.data
        ++ List.replicate (padding4 a.data.length) 0)) := by
  simp [serializeAttr]

/-- Parsing one serialized attribute off the front of a buffer
recovers it, provided its value length and type fit in 16 bits. -/
theorem parseAttrsF_cons (fuel : Nat) (a : NAttr) (tail : Bytes)
    (hd : a.data.length + 4 ≤ 65535) (ht : a.typ ≤ 65535) :
    parseAttrsF (fuel + 1) (serializeAttr a ++ tail) =
      (parseAttrsF fuel tail).bind fun rest => .ok (a :: rest) := by
  set dl := a.data.length with hdl
  have hAlen : (serializeAttr a).length = 4 + dl + padding4 dl :=
    length_serializeAttr a
  have hblen : (serializeAttr a ++ tail).length
      = 4 + dl + padding4 dl + tail.length := by
    rw [List.length_append, hAlen]
  have hread : read16 (serializeAttr a ++ tail) = 4 + dl := by
    rw [serializeAttr_eq, List.append_assoc, read16_put16_append]
    omega
  have hdrop2 : (serializeAttr a ++ tail).drop 2
      = put16 a.typ ++ (a.data
        ++ (List.replicate (padding4 dl) 0 ++ tail)) := by
    rw [serializeAttr_eq, List.append_assoc, List.append_assoc,
      List.append_assoc, List.drop_left' (length_put16 _)]
  have hreadt : read16 ((serializeAttr a ++ tail).drop 2) = a.typ := by
    rw [hdrop2, read16_put16_append]
    omega
  have hdrop4 : (serializeAttr a ++ tail).drop 4
      = a.data ++ (List.replicate (padding4 dl) 0 ++ tail) := by
    rw [serializeAttr_eq]
    have : (put16 (4 + dl) ++ (put16 a.typ ++ (a.data
        ++ List.replicate (padding4 dl) 0))) ++ tail
        = (put16 (4 + dl) ++ put16 a.typ) ++ (a.data
          ++ (List.replicate (padding4 dl) 0 ++ tail)) := by
      simp [List.append_assoc]
    rw [this, List.drop_left' (by simp)]
  have htake : ((serializeAttr a ++ tail).drop 4).take (4 + dl - 4) = a.data := by
    rw [hdrop4, Nat.add_sub_cancel_left, hdl, List.take_left]
  have halign : min (align4 (4 + dl)) ((serializeAttr a ++ tail).length)
      = (serializeAttr a).length := by
    rw [hAlen, hblen, align4, padding4_add4]
    omega
  have hdropA : (serializeAttr a ++ tail).drop ((serializeAttr a).length) = tail :=
    List.drop_left _ _
  have hne : serializeAttr a ++ tail ≠ [] := by
    rw [serializeAttr_eq]
    simp [put16]
  rw [parseAttrsF_succ_ne_nil _ _ hne]
  rw [if_neg (by omega)]
  simp only [hread, hreadt, htake, halign, hdropA]
  rw [if_neg (by omega)]

theorem length_serializeAttrs_ge (attrs : List NAttr) :
    attrs.length ≤ (serializeAttrs attrs).length := by
  induction attrs with
  | nil => simp
  | cons a l ih =>
    rw [serializeAttrs_cons, List.length_append, length_serializeAttr]
    simp only [List.length_cons]
    omega

theorem parseAttrsF_serializeAttrs (attrs : List NAttr) (fuel : Nat)
    (hfuel : attrs.length ≤ fuel)
    (h : ∀ a ∈ attrs, a.data.length + 4 ≤ 65535 ∧ a.typ ≤ 65535) :
    parseAttrsF fuel (serializeAttrs attrs) = .ok attrs := by
  induction attrs generalizing fuel with
  | nil => simp
  | cons a l ih =>
    cases fuel with
    | zero => simp at hfuel
    | succ f =>
      have ha := h a (List.mem_cons_self a l)
      rw [serializeAttrs_cons, parseAttrsF_cons f a _ ha.1 ha.2,
        ih f (by simp only [List.length_cons] at hfuel; omega)
          (fun x hx => h x (List.mem_cons_of_mem a hx))]
      rfl

/-- Round-trip of the netlink TLV layer: parsing a serialized
attribute list recovers it exactly, provided each value length (plus
the 4-byte header) and each type code fit in 16 bits. -/
theorem parseAttrs_serializeAttrs (attrs : List NAttr)
    (h : ∀ a ∈ attrs, a.data.length + 4 ≤ 65535 ∧ a.typ ≤ 65535) :
    parseAttrs (serializeAttrs attrs) = .ok attrs :=
  parseAttrsF_serializeAttrs attrs _ (length_serializeAttrs_ge attrs) h

/-- `AttributeDecoder.Type()`: the stored type with the two flag bits
(`Nested`, `NetByteOrder`) masked off: `typ &&& 0x3fff`. -/
def decoderType (t : Nat) : Nat := t % 16384

/-- `AttributeDecoder.Uint32()`: errors unless the value is exactly
4 bytes wide. -/
def attrUint32 (d : Bytes) : Res Nat :=
  if d.length = 4 then .ok (read32 d) else .err .attrNotUint32

/-- `net.IP.To4`: a 4-byte address is returned as is; a 16-byte
IPv4-mapped address (ten zero bytes, then `0xff 0xff`) is shortened to
its last 4 bytes; anything else yields `nil`. -/
def ipTo4 (ip : Bytes) : Option Bytes :=
  if ip.length = 4 then some ip
  else if ip.length = 16 ∧ ip.take 10 = List.replicate 10 (0 : Byte)
      ∧ ip.getD 10 0 = 255 ∧ ip.getD 11 0 = 255 then
    some (ip.drop 12)
  else none

/-! ## Route messages (`route.go`) -/

def RTA_UNSPEC : Nat := 0
def RTA_DST : Nat := 1
def RTA_OIF : Nat := 4
def RTA_GATEWAY : Nat := 5
def RTA_PRIORITY : Nat := 6
def RTA_PREFSRC : Nat := 7
def RTA_METRICS : Nat := 8
def RTA_MULTIPATH : Nat := 9
def RTA_TABLE : Nat := 15
def RTA_MARK : Nat := 16
def RTA_EXPIRES : Nat := 23
def RTAX_MTU : Nat := 2
def RTAX_ADVMSS : Nat := 8
def RTAX_INITCWND : Nat := 11
def RTAX_FEATURES : Nat := 12

/-- The 8-byte `rtnexthop` struct (`RTNextHop` in `route.go`), fields
in native (little-endian) layout: `u16 length, u8 flags, u8 hops,
u32 ifindex`. -/
structure RTNextHop where
  length : Nat := 0
  flags : Nat := 0
  hops : Nat := 0
  ifIndex : Nat := 0
  deriving DecidableEq, Repr, Inhabited

/-- `NextHop` of `route.go`: an `rtnexthop` struct plus its nested
gateway attribute (`none` models a nil `net.IP`). -/
structure NextHop where
  hop : RTNextHop := {}
  gateway : Option Bytes := none
  deriving DecidableEq, Repr, Inhabited

/-- `RouteMetrics` of `route.go`. -/
structure RouteMetrics where
  advMSS : Nat := 0
  features : Nat := 0
  initCwnd : Nat := 0
  mtu : Nat := 0
  deriving DecidableEq, Repr, Inhabited

/-- `RouteAttributes` of `route.go`.  A nil `net.IP` / nil pointer is
`none`. -/
structure RouteAttributes where
  dst : Option Bytes := none
  src : Option Bytes := none
  gateway : Option Bytes := none
  outIface : Nat := 0
  priority : Nat := 0
  table : Nat := 0
  mark : Nat := 0
  expires : Option Nat := none
  metrics : Option RouteMetrics := none
  multipath : List NextHop := []
  deriving DecidableEq, Repr, Inhabited

/-- `RouteMessage` of `route.go` (header fields are `uint8` except the
`uint32` flags). -/
structure RouteMessage where
  family : Nat := 0
  dstLength : Nat := 0
  srcLength : Nat := 0
  tos : Nat := 0
  table : Nat := 0
  protocol : Nat := 0
  scope : Nat := 0
  typ : Nat := 0
  flags : Nat := 0
  attributes : RouteAttributes := {}
  deriving DecidableEq, Repr, Inhabited

/-- One `if a.X != nil` block of `RouteAttributes.encode` for an IP
field: when present, emit the address through `To4` (an IPv4 address,
also in its 16-byte mapped form, is emitted with its 4 bytes; an IPv6
address with all 16). -/
def ipSeg (t : Nat) (o : Option Bytes) : List NAttr :=
  match o with
  | none => []
  | some ip => [⟨t, match ipTo4 ip with | none => ip | some ip4 => ip4⟩]

/-- One `if v != 0` encoder block for a `u32` field: emitted only when
non-zero. -/
def u32Seg (t : Nat) (v : Nat) : List NAttr :=
  if v ≠ 0 then [⟨t, put32 v⟩] else []

/-- The `if a.Expires != nil` block: emitted when the pointer is
non-nil. -/
def optU32Seg (t : Nat) (o : Option Nat) : List NAttr :=
  match o with
  | none => []
  | some v => [⟨t, put32 v⟩]

/-- `RouteMetrics.encode`: each metric is emitted as a `u32` attribute
only when non-zero. -/
def RouteMetrics.encode (rm : RouteMetrics) : List NAttr :=
  u32Seg RTAX_ADVMSS rm.advMSS
    ++ u32Seg RTAX_FEATURES rm.features
    ++ u32Seg RTAX_INITCWND rm.initCwnd
    ++ u32Seg RTAX_MTU rm.mtu

/-- One iteration of the `RouteMetrics.decode` switch. -/
def RouteMetrics.decodeStep (rm : RouteMetrics) (x : NAttr) : Res RouteMetrics :=
  let t := decoderType x.typ
  if t = RTAX_ADVMSS then (attrUint32 x.data).bind fun v => .ok {rm with advMSS := v}
  else if t = RTAX_FEATURES then (attrUint32 x.data).bind fun v => .ok {rm with features := v}
  else if t = RTAX_INITCWND then (attrUint32 x.data).bind fun v => .ok {rm with initCwnd := v}
  else if t = RTAX_MTU then (attrUint32 x.data).bind fun v => .ok {rm with mtu := v}
  else .ok rm

/-- `RouteMetrics.decode`: iterate the attribute list, stopping at the
first decoder error (a `Uint32` width failure surfaces through
`ad.Err` in the `Nested` combinator). -/
def RouteMetrics.decodeList : RouteMetrics → List NAttr → Res RouteMetrics
  | rm, [] => .ok rm
  | rm, x :: xs => (rm.decodeStep x).bind (RouteMetrics.decodeList · xs)

/-- One iteration of the `NextHop.decode` switch: only `RTA_GATEWAY`
is handled, with width 4 or 16 required. -/
def NextHop.decodeStep (nh : NextHop) (x : NAttr) : Res NextHop :=
  if decoderType x.typ = RTA_GATEWAY then
    if x.data.length ≠ 4 ∧ x.data.length ≠ 16 then .err .invalidRouteMessageAttr
    else .ok {nh with gateway := some x.data}
  else .ok nh

/-- `NextHop.decode`. -/
def NextHop.decodeList : NextHop → List NAttr → Res NextHop
  | nh, [] => .ok nh
  | nh, x :: xs => (nh.decodeStep x).bind (NextHop.decodeList · xs)

/-- `RouteAttributes.encodeMultipath`: for each next-hop the nested
attributes are encoded first, then the 8-byte `rtnexthop` header is
written with its length field recomputed as `8 + len(attrs)`.  Note
the guard on the gateway attribute faithfully tests the route-level
`a.Gateway` for nil (as the source does) while encoding the hop-level
`nh.Gateway` value. -/
def RouteAttributes.encodeMultipath (a : RouteAttributes) : Bytes :=
  a.multipath.foldl (fun acc nh =>
    let ab := serializeAttrs
      (if a.gateway.isSome then [⟨RTA_GATEWAY, nh.gateway.getD []⟩] else [])
    acc ++ (put16 (8 + ab.length) ++ [byte nh.hop.flags, byte nh.hop.hops]
      ++ put32 nh.hop.ifIndex) ++ ab) []

/-- The loop body of `RouteAttributes.parseMultipath`, fuel-indexed
(`parseMultipath` supplies fuel `len(b) + 1`, which always suffices
because every iteration either returns or advances the cursor by at
least 8 bytes).  The truncation check compares the declared next-hop
length against the length of the *whole* buffer, exactly as the
source's `int(nh.Hop.Length) > len(b)` does; the subsequent
`b[start:end]` slice expression is modelled by `crash` whenever it
leaves the buffer's bounds (in Go it panics, or reads adjacent memory
beyond `len(b)` when the underlying array's capacity allows). -/
def parseMultipathF : Nat → RouteAttributes → Bytes → Nat → Res RouteAttributes
  | 0, _, _, _ => .crash
  | fuel + 1, a, b, i =>
    if b.length - i < 8 then .ok a
    else
      let nh : RTNextHop :=
        { length := read16 (b.drop i)
          flags := (b.getD (i + 2) 0).val
          hops := (b.getD (i + 3) 0).val
          ifIndex := read32 (b.drop (i + 4)) }
      if b.length < nh.length then .err .invalidRouteMessageAttr
      else
        let start := i + 8
        let stop := i + nh.length
        if start ≤ stop ∧ stop ≤ b.length then
          (parseAttrs ((b.take stop).drop start)).bind fun attrs =>
            (NextHop.decodeList {hop := nh} attrs).bind fun nhv =>
              parseMultipathF fuel {a with multipath := a.multipath ++ [nhv]} b stop
        else .crash

/-- `RouteAttributes.parseMultipath`: rejects a buffer of at most 8
bytes, then iterates the next-hop records. -/
def RouteAttributes.parseMultipath (a : RouteAttributes) (b : Bytes) :
    Res RouteAttributes :=
  if b.length ≤ 8 then .err .invalidRouteMessageAttr
  else parseMultipathF (b.length + 1) a b 0

/-- The `if a.Metrics != nil` block: a nested attribute (type tagged
with the encoder's `Nested` flag `0x8000`) holding the serialized
metric attributes. -/
def metricsSeg (o : Option RouteMetrics) : List NAttr :=
  match o with
  | none => []
  | some rm => [⟨RTA_METRICS + 32768, serializeAttrs rm.encode⟩]

/-- `RouteAttributes.encode`: the attribute list handed to the
encoder, blocks in source order; a non-empty multipath list is
emitted through `encodeMultipath` (the `ae.Do` escape hatch). -/
def RouteAttributes.encode (a : RouteAttributes) : List NAttr :=
  ipSeg RTA_DST a.dst
  ++ ipSeg RTA_PREFSRC a.src
  ++ ipSeg RTA_GATEWAY a.gateway
  ++ u32Seg RTA_OIF a.outIface
  ++ u32Seg RTA_PRIORITY a.priority
  ++ u32Seg RTA_TABLE a.table
  ++ u32Seg RTA_MARK a.mark
  ++ optU32Seg RTA_EXPIRES a.expires
  ++ metricsSeg a.metrics
  ++ (if 0 < a.multipath.length then [⟨RTA_MULTIPATH, a.encodeMultipath⟩] else [])

/-- One iteration of the `RouteAttributes.decode` switch. -/
def RouteAttributes.decodeStep (a : RouteAttributes) (x : NAttr) :
    Res RouteAttributes :=
  let t := decoderType x.typ
  if t = RTA_UNSPEC then .ok a
  else if t = RTA_DST then
    if x.data.length ≠ 4 ∧ x.data.length ≠ 16 then .err .invalidRouteMessageAttr
    else .ok {a with dst := some x.data}
  else if t = RTA_PREFSRC then
    if x.data.length ≠ 4 ∧ x.data.length ≠ 16 then .err .invalidRouteMessageAttr
    else .ok {a with src := some x.data}
  else if t = RTA_GATEWAY then
    if x.data.length ≠ 4 ∧ x.data.length ≠ 16 then .err .invalidRouteMessageAttr
    else .ok {a with gateway := some x.data}
  else if t = RTA_OIF then (attrUint32 x.data).bind fun v => .ok {a with outIface := v}
  else if t = RTA_PRIORITY then (attrUint32 x.data).bind fun v => .ok {a with priority := v}
  else if t = RTA_TABLE then (attrUint32 x.data).bind fun v => .ok {a with table := v}
  else if t = RTA_MARK then (attrUint32 x.data).bind fun v => .ok {a with mark := v}
  else if t = RTA_EXPIRES then (attrUint32 x.data).bind fun v => .ok {a with expires := some v}
  else if t = RTA_METRICS then
    (parseAttrs x.data).bind fun nested =>
      (RouteMetrics.decodeList {} nested).bind fun rm =>
        .ok {a with metrics := some rm}
  else if t = RTA_MULTIPATH then a.parseMultipath x.data
  else .ok a

/-- `RouteAttributes.decode`: iterate the attribute list, stopping at
the first error. -/
def RouteAttributes.decodeList : RouteAttributes → List NAttr → Res RouteAttributes
  | a, [] => .ok a
  | a, x :: xs => (a.decodeStep x).bind (RouteAttributes.decodeList · xs)

/-- `RouteMessage.MarshalBinary`: the 12-byte `rtmsg` header followed
by the encoded attribute list. -/
def RouteMessage.marshalBinary (m : RouteMessage) : Bytes :=
  ([byte m.family, byte m.dstLength, byte m.srcLength, byte m.tos,
    byte m.table, byte m.protocol, byte m.scope, byte m.typ] ++ put32 m.flags)
  ++ serializeAttrs m.attributes.encode

/-- `RouteMessage.UnmarshalBinary`: errors on fewer than 12 bytes;
overwrites the header fields from the buffer; resets and re-decodes
`Attributes` only when bytes beyond the header remain, otherwise the
receiver's `Attributes` are left untouched. -/
def RouteMessage.unmarshalBinary (m : RouteMessage) (b : Bytes) : Res RouteMessage :=
  if b.length < 12 then .err .invalidRouteMessage
  else if 12 < b.length then
    (parseAttrs (b.drop 12)).bind fun attrs =>
      (RouteAttributes.decodeList {} attrs).bind fun a =>
        .ok { family := (b.getD 0 0).val
              dstLength := (b.getD 1 0).val
              srcLength := (b.getD 2 0).val
              tos := (b.getD 3 0).val
              table := (b.getD 4 0).val
              protocol := (b.getD 5 0).val
              scope := (b.getD 6 0).val
              typ := (b.getD 7 0).val
              flags := read32 (b.drop 8)
              attributes := a }
  else .ok { family := (b.getD 0 0).val
             dstLength := (b.getD 1 0).val
             srcLength := (b.getD 2 0).val
             tos := (b.getD 3 0).val
             table := (b.getD 4 0).val
             protocol := (b.getD 5 0).val
             scope := (b.getD 6 0).val
             typ := (b.getD 7 0).val
             flags := read32 (b.drop 8)
             attributes := m.attributes }

/-! ## Address messages (the `AddressMessage` revision with width checks) -/

def ifaAddress : Nat := 1
def ifaLocal : Nat := 2
def ifaLabel : Nat := 3
def ifaBroadcast : Nat := 4
def ifaAnycast : Nat := 5
def ifaCacheInfo : Nat := 6
def ifaMulticast : Nat := 7
def ifaFlags : Nat := 8

/-- `nlenc.String`: the bytes before the first NUL terminator. -/
def nlString (b : Bytes) : Bytes := b.takeWhile (· ≠ 0)

/-- `CacheInfo` of the address message. -/
structure CacheInfo where
  prefered : Nat := 0
  valid : Nat := 0
  created : Nat := 0
  updated : Nat := 0
  deriving DecidableEq, Repr, Inhabited

/-- `CacheInfo.UnmarshalBinary`: requires exactly 16 bytes. -/
def CacheInfo.unmarshalBinary (b : Bytes) : Res CacheInfo :=
  if b.length ≠ 16 then .err (.cacheInfoSize b.length)
  else .ok { prefered := read32 b, valid := read32 (b.drop 4),
             created := read32 (b.drop 8), updated := read32 (b.drop 12) }

/-- `AddressAttributes` (a nil `net.IP` is the empty byte list; the
label is the decoded string's bytes). -/
structure AddressAttributes where
  address : Bytes := []
  localAddr : Bytes := []
  label : Bytes := []
  broadcast : Bytes := []
  anycast : Bytes := []
  cacheInfo : CacheInfo := {}
  multicast : Bytes := []
  flags : Nat := 0
  deriving DecidableEq, Repr, Inhabited

/-- One iteration of the `AddressAttributes.UnmarshalBinary` switch
(the type is the raw stored code, per `netlink.UnmarshalAttributes`).
Address, anycast and multicast accept widths 4 and 16; local and
broadcast accept only width 4. -/
def AddressAttributes.decodeStep (a : AddressAttributes) (x : NAttr) :
    Res AddressAttributes :=
  if x.typ = 0 then .ok a
  else if x.typ = ifaAddress then
    if x.data.length ≠ 4 ∧ x.data.length ≠ 16 then .err .invalidAddressMessageAttr
    else .ok {a with address := x.data}
  else if x.typ = ifaLocal then
    if x.data.length ≠ 4 then .err .invalidAddressMessageAttr
    else .ok {a with localAddr := x.data}
  else if x.typ = ifaLabel then .ok {a with label := nlString x.data}
  else if x.typ = ifaBroadcast then
    if x.data.length ≠ 4 then .err .invalidAddressMessageAttr
    else .ok {a with broadcast := x.data}
  else if x.typ = ifaAnycast then
    if x.data.length ≠ 4 ∧ x.data.length ≠ 16 then .err .invalidAddressMessageAttr
    else .ok {a with anycast := x.data}
  else if x.typ = ifaCacheInfo then
    if x.data.length ≠ 16 then .err .invalidAddressMessageAttr
    else (CacheInfo.unmarshalBinary x.data).bind fun ci => .ok {a with cacheInfo := ci}
  else if x.typ = ifaMulticast then
    if x.data.length ≠ 4 ∧ x.data.length ≠ 16 then .err .invalidAddressMessageAttr
    else .ok {a with multicast := x.data}
  else if x.typ = ifaFlags then
    if x.data.length ≠ 4 then .err .invalidAddressMessageAttr
    else .ok {a with flags := read32 x.data}
  else .ok a

def AddressAttributes.decodeList : AddressAttributes → List NAttr → Res AddressAttributes
  | a, [] => .ok a
  | a, x :: xs => (a.decodeStep x).bind (AddressAttributes.decodeList · xs)

/-- `AddressAttributes.UnmarshalBinary`. -/
def AddressAttributes.unmarshalBinary (a : AddressAttributes) (b : Bytes) :
    Res AddressAttributes :=
  (parseAttrs b).bind fun attrs => a.decodeList attrs

/-- `AddressAttributes.MarshalBinary`: unconditionally emits unspec,
address, local, broadcast, anycast, multicast and flags, each with the
stored bytes verbatim. -/
def AddressAttributes.marshalBinary (a : AddressAttributes) : Bytes :=
  serializeAttrs
    [⟨0, put16 0⟩, ⟨ifaAddress, a.address⟩, ⟨ifaLocal, a.localAddr⟩,
     ⟨ifaBroadcast, a.broadcast⟩, ⟨ifaAnycast, a.anycast⟩,
     ⟨ifaMulticast, a.multicast⟩, ⟨ifaFlags, put32 a.flags⟩]

/-- `AddressMessage`. -/
structure AddressMessage where
  family : Nat := 0
  prefixLen : Nat := 0
  flags : Nat := 0
  scope : Nat := 0
  index : Nat := 0
  attributes : AddressAttributes := {}
  deriving DecidableEq, Repr, Inhabited

/-- `AddressMessage.MarshalBinary`: the 8-byte `ifaddrmsg` header
(family, prefix length, flags, scope, then the `u32` index) followed
by the marshaled attributes. -/
def AddressMessage.marshalBinary (m : AddressMessage) : Bytes :=
  ([byte m.family, byte m.prefixLen, byte m.flags, byte m.scope] ++ put32 m.index)
    ++ m.attributes.marshalBinary

/-- `AddressMessage.UnmarshalBinary`.  Note the source reads `Flags`
from `b[3]` and `Scope` from `b[4]` (not `b[2]`/`b[3]` where
`MarshalBinary` wrote them). -/
def AddressMessage.unmarshalBinary (m : AddressMessage) (b : Bytes) :
    Res AddressMessage :=
  if b.length < 8 then .err .invalidAddressMessage
  else
    let withAttrs : AddressAttributes → AddressMessage := fun a =>
      { family := (b.getD 0 0).val
        prefixLen := (b.getD 1 0).val
        flags := (b.getD 3 0).val
        scope := (b.getD 4 0).val
        index := read32 (b.drop 4)
        attributes := a }
    if 8 < b.length then
      (AddressAttributes.unmarshalBinary {} (b.drop 8)).bind fun a =>
        .ok (withAttrs a)
    else .ok (withAttrs m.attributes)

/-! ## Neighbor messages (`neigh.go`) -/

def NDA_DST : Nat := 1
def NDA_LLADDR : Nat := 2
def NDA_CACHEINFO : Nat := 3
def NDA_IFINDEX : Nat := 8

structure NeighCacheInfo where
  confirmed : Nat := 0
  used : Nat := 0
  updated : Nat := 0
  refCount : Nat := 0
  deriving DecidableEq, Repr, Inhabited

/-- `NeighCacheInfo.UnmarshalBinary`: requires exactly 16 bytes. -/
def NeighCacheInfo.unmarshalBinary (b : Bytes) : Res NeighCacheInfo :=
  if b.length ≠ 16 then .err (.cacheInfoSize b.length)
  else .ok { confirmed := read32 b, used := read32 (b.drop 4),
             updated := read32 (b.drop 8), refCount := read32 (b.drop 12) }

/-- `NeighAttributes` (`CacheInfo` is a nil-able pointer). -/
structure NeighAttributes where
  address : Bytes := []
  llAddress : Bytes := []
  cacheInfo : Option NeighCacheInfo := none
  ifIndex : Nat := 0
  deriving DecidableEq, Repr, Inhabited

/-- One iteration of the `NeighAttributes.UnmarshalBinary` switch:
destination accepts widths 4 and 16, the link-layer address exactly 6,
the interface index exactly 4; the cache info is delegated to
`NeighCacheInfo.UnmarshalBinary`. -/
def NeighAttributes.decodeStep (a : NeighAttributes) (x : NAttr) :
    Res NeighAttributes :=
  if x.typ = 0 then .ok a
  else if x.typ = NDA_DST then
    if x.data.length ≠ 4 ∧ x.data.length ≠ 16 then .err .invalidNeighMessageAttr
    else .ok {a with address := x.data}
  else if x.typ = NDA_LLADDR then
    if x.data.length ≠ 6 then .err .invalidNeighMessageAttr
    else .ok {a with llAddress := x.data}
  else if x.typ = NDA_CACHEINFO then
    (NeighCacheInfo.unmarshalBinary x.data).bind fun ci =>
      .ok {a with cacheInfo := some ci}
  else if x.typ = NDA_IFINDEX then
    if x.data.length ≠ 4 then .err .invalidNeighMessageAttr
    else .ok {a with ifIndex := read32 x.data}
  else .ok a

def NeighAttributes.decodeList : NeighAttributes → List NAttr → Res NeighAttributes
  | a, [] => .ok a
  | a, x :: xs => (a.decodeStep x).bind (NeighAttributes.decodeList · xs)

/-- `NeighAttributes.UnmarshalBinary`. -/
def NeighAttributes.unmarshalBinary (a : NeighAttributes) (b : Bytes) :
    Res NeighAttributes :=
  (parseAttrs b).bind fun attrs => a.decodeList attrs

/-- `NeighAttributes.MarshalBinary`: unconditionally emits unspec,
destination, link-layer address and interface index, each with the
stored bytes verbatim. -/
def NeighAttributes.marshalBinary (a : NeighAttributes) : Bytes :=
  serializeAttrs
    [⟨0, put16 0⟩, ⟨NDA_DST, a.address⟩, ⟨NDA_LLADDR, a.llAddress⟩,
     ⟨NDA_IFINDEX, put32 a.ifIndex⟩]

/-- `NeighMessage` (`Attributes` is a nil-able pointer). -/
structure NeighMessage where
  family : Nat := 0
  index : Nat := 0
  state : Nat := 0
  flags : Nat := 0
  typ : Nat := 0
  attributes : Option NeighAttributes := none
  deriving DecidableEq, Repr, Inhabited

/-- `NeighMessage.MarshalBinary`: 12-byte header (`u16` family, two
padding bytes, `u32` index, `u16` state, flags, type), then the
attributes when the pointer is non-nil. -/
def NeighMessage.marshalBinary (m : NeighMessage) : Bytes :=
  (put16 m.family ++ [0, 0] ++ put32 m.index ++ put16 m.state
    ++ [byte m.flags, byte m.typ])
  ++ (match m.attributes with
    | none => []
    | some a => a.marshalBinary)

/-- `NeighMessage.UnmarshalBinary`. -/
def NeighMessage.unmarshalBinary (m : NeighMessage) (b : Bytes) :
    Res NeighMessage :=
  if b.length < 12 then .err .invalidNeighMessage
  else
    let withAttrs : Option NeighAttributes → NeighMessage := fun a =>
      { family := read16 b
        index := read32 (b.drop 4)
        state := read16 (b.drop 8)
        flags := (b.getD 10 0).val
        typ := (b.getD 11 0).val
        attributes := a }
    if 12 < b.length then
      (NeighAttributes.unmarshalBinary {} (b.drop 12)).bind fun a =>
        .ok (withAttrs (some a))
    else .ok (withAttrs m.attributes)

/-! ## Link messages (the 16-byte-header `LinkMessage` revision) -/

/-- `LinkAttributes` (its `UnmarshalBinary` is a stub that decodes
nothing). -/
structure LinkAttributes where
  address : Option Bytes := none
  broadcast : Option Bytes := none
  name : Bytes := []
  mtu : Nat := 0
  typ : Int := 0
  queueDisc : Option Bytes := none
  stats : Option Unit := none
  deriving DecidableEq, Repr, Inhabited

/-- `LinkMessage` (`Attributes` is a nil-able pointer). -/
structure LinkMessage where
  family : Nat := 0
  typ : Nat := 0
  index : Nat := 0
  flags : Nat := 0
  change : Nat := 0
  attributes : Option LinkAttributes := none
  deriving DecidableEq, Repr, Inhabited

/-- `LinkMessage.MarshalBinary`: 16 bytes; family and the reserved
byte are written as zero, `Change` is written as zero. -/
def LinkMessage.marshalBinary (m : LinkMessage) : Bytes :=
  ([byte 0, byte 0] ++ put16 m.typ ++ put32 m.index ++ put32 m.flags) ++ put32 0

/-- `LinkMessage.UnmarshalBinary`: the source reads `b[0:2]` through
`b[12:16]` with no length guard, so any input shorter than 16 bytes
makes one of those slice expressions panic (`crash`).  The
`LinkAttributes.UnmarshalBinary` stub decodes nothing, so trailing
bytes produce a fresh zero-valued attributes struct. -/
def LinkMessage.unmarshalBinary (m : LinkMessage) (b : Bytes) : Res LinkMessage :=
  if b.length < 16 then .crash
  else .ok
    { family := read16 b
      typ := read16 (b.drop 2)
      index := read32 (b.drop 4)
      flags := read32 (b.drop 8)
      change := read32 (b.drop 12)
      attributes := if 16 < b.length then some {} else m.attributes }

/-! ## The batch unpacker (`conn.go`) -/

def RTM_NEWLINK : Nat := 16
def RTM_DELLINK : Nat := 17
def RTM_GETLINK : Nat := 18
def RTM_NEWADDR : Nat := 20
def RTM_DELADDR : Nat := 21
def RTM_GETADDR : Nat := 22
def RTM_NEWROUTE : Nat := 24
def RTM_DELROUTE : Nat := 25
def RTM_GETROUTE : Nat := 26

/-- The rtnetlink `Message` union as `unpackMessages` produces it. -/
inductive RtnlMessage where
  | link (m : LinkMessage)
  | address (m : AddressMessage)
  | route (m : RouteMessage)
  deriving DecidableEq, Repr

/-- A received `netlink.Message`: its header type code and payload. -/
structure NlMessage where
  typ : Nat
  data : Bytes
  deriving DecidableEq, Repr

/-- The dispatch switch of `unpackMessages`: a recognized type code
selects a fresh variant value and runs its `UnmarshalBinary`; an
unrecognized code yields `none` (the `continue` branch). -/
def unpackOne (nm : NlMessage) : Option (Res RtnlMessage) :=
  if nm.typ = RTM_GETLINK ∨ nm.typ = RTM_NEWLINK ∨ nm.typ = RTM_DELLINK then
    some ((LinkMessage.unmarshalBinary {} nm.data).bind fun m => .ok (.link m))
  else if nm.typ = RTM_GETADDR ∨ nm.typ = RTM_NEWADDR ∨ nm.typ = RTM_DELADDR then
    some ((AddressMessage.unmarshalBinary {} nm.data).bind fun m => .ok (.address m))
  else if nm.typ = RTM_GETROUTE ∨ nm.typ = RTM_NEWROUTE ∨ nm.typ = RTM_DELROUTE then
    some ((RouteMessage.unmarshalBinary {} nm.data).bind fun m => .ok (.route m))
  else none

/-- Outcome of `unpackMessages`: the returned message slice, or the
returned `(slice, error)` pair (the source returns `nil, err`, so the
slice accompanying an error is always empty), or a panic. -/
inductive URes where
  | ok (msgs : List RtnlMessage)
  | fail (msgs : List RtnlMessage) (e : RtErr)
  | crash
  deriving DecidableEq, Repr

/-- `unpackMessages` of `conn.go`: skip unrecognized type codes;
dispatch recognized ones; on the first `UnmarshalBinary` error return
`nil` and that error. -/
def unpackMessages : List NlMessage → URes
  | [] => .ok []
  | nm :: rest =>
    match unpackOne nm with
    | none => unpackMessages rest
    | some (.err e) => .fail [] e
    | some .crash => .crash
    | some (.ok m) =>
      match unpackMessages rest with
      | .ok ms => .ok (m :: ms)
      | .fail ms e => .fail ms e
      | .crash => .crash

/-! ## The MPLS label-stack sub-codec

The MPLS next-hop decoder is part of this repository but not present
under `src/` (only its tests, which exercise `MPLSNextHop` values, are
included), so it is modelled from the spec. -/

/-- `MPLSNextHop`. -/
structure MPLSNextHop where
  label : Nat
  trafficClass : Nat
  bottomOfStack : Bool
  ttl : Nat
  deriving DecidableEq, Repr

/-- Modelled from the spec: unpacking one 4-byte big-endian MPLS label
word, bits `[0:20)` the label, `[20:23)` the traffic class, bit 23
bottom-of-stack, `[24:32)` the TTL. -/
def unpackMPLSWord (w : Nat) : MPLSNextHop :=
  { label := w / 4096
    trafficClass := w / 512 % 8
    bottomOfStack := w / 256 % 2 = 1
    ttl := w % 256 }

/-- Modelled from the spec: the MPLS label-stack decoder (absent from
`src/`), written as the source would run: a cursor walks the
attribute's bytes, reading consecutive 4-byte big-endian words and
appending the unpacked entry, stopping after a word whose
bottom-of-stack bit is set or when fewer than 4 bytes remain.  The
fuel `b.length` always suffices since each step advances the cursor
by 4. -/
def decodeMPLSF : Nat → Bytes → Nat → List MPLSNextHop
  | 0, _, _ => []
  | fuel + 1, b, i =>
    if b.length < i + 4 then []
    else
      let w := (b.getD i 0).val * 16777216 + (b.getD (i + 1) 0).val * 65536
        + (b.getD (i + 2) 0).val * 256 + (b.getD (i + 3) 0).val
      let e := unpackMPLSWord w
      if e.bottomOfStack then [e] else e :: decodeMPLSF fuel b (i + 4)

/-- Modelled from the spec: MPLS label-stack decode over a whole
attribute value. -/
def decodeMPLS (b : Bytes) : List MPLSNextHop := decodeMPLSF b.length b 0

/-- The consecutive complete 4-byte big-endian words of a buffer
(declarative chunking, for stating the MPLS decode property). -/
def words4 : Bytes → List Nat
  | b0 :: b1 :: b2 :: b3 :: rest =>
    (b0.val * 16777216 + b1.val * 65536 + b2.val * 256 + b3.val) :: words4 rest
  | _ => []

/-- All elements up to and including the first one satisfying `p`. -/
def takeThrough (p : α → Bool) : List α → List α
  | [] => []
  | x :: xs => if p x then [x] else x :: takeThrough p xs

/-! ## Claim C1 -/

/-- C1: the claim states that for every message variant and every
input byte slice, including the empty slice, `UnmarshalBinary` returns
normally with either success or a typed error and never panics or
reads out of bounds.  The code violates this: `LinkMessage.UnmarshalBinary`
reads `b[0:2]` through `b[12:16]` with no length guard, so the empty
slice (and any slice shorter than 16 bytes) makes a slice expression
panic instead of returning the variant's typed error. -/
theorem linkMessage_unmarshal_short_input_panics :
    LinkMessage.unmarshalBinary {} [] = .crash
      ∧ LinkMessage.unmarshalBinary {} (List.replicate 15 0) = .crash
      ∧ RouteMessage.unmarshalBinary {} [] = .err .invalidRouteMessage
      ∧ AddressMessage.unmarshalBinary {} [] = .err .invalidAddressMessage
      ∧ NeighMessage.unmarshalBinary {} [] = .err .invalidNeighMessage := by
  refine ⟨rfl, by decide, rfl, rfl, rfl⟩

/-! ## Claim C3 -/

/-- A multipath payload of 24 bytes: a well-formed 16-byte first
record, then a second record header declaring length 24, which
exceeds the 8 bytes remaining from that record's start but not the
whole buffer's 24 bytes. -/
def mpSecondOverrun : Bytes :=
  [16, 0, 0, 0, 1, 0, 0, 0, 8, 0, 5, 0, 10, 0, 0, 2,
   24, 0, 0, 0, 2, 0, 0, 0]

/-- A multipath payload of 9 bytes whose first record declares
length 24. -/
def mpFirstOverrun : Bytes := [24, 0, 0, 0, 2, 0, 0, 0, 9]

/-- C3: the claim states that a next-hop record whose declared length
exceeds the bytes remaining from that record's start yields the
invalid-route-attribute error with no out-of-bounds read, for every
position of the offending record.  The code only validates the
declared length against the length of the whole buffer
(`int(nh.Hop.Length) > len(b)`), so an offending *second* record
slips past the check and the `b[start:end]` slice leaves the buffer's
bounds (`crash`); only a first-record overrun is caught.  The same
crash is reachable from `RouteMessage.UnmarshalBinary` via an
`RTA_MULTIPATH` attribute carrying the payload. -/
theorem parseMultipath_second_record_overrun :
    RouteAttributes.parseMultipath {} mpSecondOverrun = .crash
      ∧ RouteAttributes.parseMultipath {} mpFirstOverrun
          = .err .invalidRouteMessageAttr
      ∧ RouteMessage.unmarshalBinary {}
          (List.replicate 12 0 ++ serializeAttr ⟨RTA_MULTIPATH, mpSecondOverrun⟩)
          = .crash := by
  refine ⟨by decide, by decide, by decide⟩

/-! ## Claim C4 -/

/-- The next-hop `{ifindex: 1, gateway: 10.0.0.2}` with its length
field at the encoded value 16. -/
def hopA : NextHop := {hop := {length := 16, ifIndex := 1}, gateway := some [10, 0, 0, 2]}

/-- The next-hop `{ifindex: 2, gateway: 10.0.0.3}`. -/
def hopB : NextHop := {hop := {length := 16, ifIndex := 2}, gateway := some [10, 0, 0, 3]}

/-- The two 16-byte (8-byte `rtnexthop` + 8-byte gateway TLV) records
the claim expects the two next-hops to encode to. -/
def twoHopWire : Bytes :=
  [16, 0, 0, 0, 1, 0, 0, 0, 8, 0, 5, 0, 10, 0, 0, 2,
   16, 0, 0, 0, 2, 0, 0, 0, 8, 0, 5, 0, 10, 0, 0, 3]

/-- C4: the claim states that a Route message whose Multipath holds
exactly the two next-hops encodes to two 16-byte records (each length
field 16) and that decoding those 32 bytes restores the two-hop
sequence.  Decoding does restore it, but encoding is broken: the
gateway block of `encodeMultipath` tests the *route-level*
`a.Gateway` for nil instead of the hop's own `nh.Gateway`, so for
this message (whose route-level gateway is nil) both gateway TLVs are
dropped and each record is emitted as a bare 8-byte header with
length field 8. -/
theorem encodeMultipath_drops_hop_gateways :
    RouteAttributes.encodeMultipath {multipath := [hopA, hopB]}
        = [8, 0, 0, 0, 1, 0, 0, 0, 8, 0, 0, 0, 2, 0, 0, 0]
      ∧ RouteAttributes.parseMultipath {} twoHopWire
          = .ok {multipath := [hopA, hopB]}
      ∧ RouteAttributes.encodeMultipath
            {gateway := some [10, 0, 0, 1], multipath := [hopA, hopB]}
          = twoHopWire := by
  refine ⟨by decide, by decide, by decide⟩

/-! ## Claim C10 -/

/-- C10: `RouteMessage.UnmarshalBinary` on a buffer of exactly the
12-byte fixed header overwrites all header fields from the buffer but
leaves the receiver's `Attributes` unchanged (the attributes struct
is reset and re-decoded only when trailing bytes follow the header). -/
theorem route_unmarshal_header_only_keeps_attributes
    (m : RouteMessage) (b : Bytes) (h : b.length = 12) :
    RouteMessage.unmarshalBinary m b = .ok
      { family := (b.getD 0 0).val
        dstLength := (b.getD 1 0).val
        srcLength := (b.getD 2 0).val
        tos := (b.getD 3 0).val
        table := (b.getD 4 0).val
        protocol := (b.getD 5 0).val
        scope := (b.getD 6 0).val
        typ := (b.getD 7 0).val
        flags := read32 (b.drop 8)
        attributes := m.attributes } := by
  rw [RouteMessage.unmarshalBinary, if_neg (by omega), if_neg (by omega)]

/-- Witness for C10 at a concrete receiver with pre-existing
attributes and a concrete 12-byte buffer. -/
theorem route_unmarshal_header_only_keeps_attributes_witness :
    ([2, 8, 0, 0, 254, 4, 0, 1, 1, 0, 0, 0] : Bytes).length = 12
      ∧ RouteMessage.unmarshalBinary
          {attributes := {dst := some [10, 0, 0, 0], priority := 7}}
          [2, 8, 0, 0, 254, 4, 0, 1, 1, 0, 0, 0]
        = .ok { family := 2, dstLength := 8, srcLength := 0, tos := 0
                table := 254, protocol := 4, scope := 0, typ := 1, flags := 1
                attributes := {dst := some [10, 0, 0, 0], priority := 7} } :=
  ⟨by decide,
    route_unmarshal_header_only_keeps_attributes
      {attributes := {dst := some [10, 0, 0, 0], priority := 7}}
      [2, 8, 0, 0, 254, 4, 0, 1, 1, 0, 0, 0] (by decide)⟩

/-! ## Claim C7 -/

/-- The message-type codes recognized by the `unpackMessages` switch. -/
def recognizedType (t : Nat) : Bool :=
  t == RTM_GETLINK || t == RTM_NEWLINK || t == RTM_DELLINK
    || t == RTM_GETADDR || t == RTM_NEWADDR || t == RTM_DELADDR
    || t == RTM_GETROUTE || t == RTM_NEWROUTE || t == RTM_DELROUTE

theorem unpackOne_eq_none (nm : NlMessage) (h : recognizedType nm.typ = false) :
    unpackOne nm = none := by
  simp only [recognizedType, Bool.or_eq_false_iff, beq_eq_false_iff_ne, ne_eq] at h
  obtain ⟨⟨⟨⟨⟨⟨⟨⟨h1, h2⟩, h3⟩, h4⟩, h5⟩, h6⟩, h7⟩, h8⟩, h9⟩ := h
  simp [unpackOne, h1, h2, h3, h4, h5, h6, h7, h8, h9]

theorem unpackOne_isSome (nm : NlMessage) (h : recognizedType nm.typ = true) :
    (unpackOne nm).isSome := by
  simp only [recognizedType, Bool.or_eq_true, beq_iff_eq] at h
  rcases h with ((((((((h | h) | h) | h) | h) | h) | h) | h) | h) <;>
    simp [unpackOne, h, RTM_GETLINK, RTM_NEWLINK, RTM_DELLINK, RTM_GETADDR,
      RTM_NEWADDR, RTM_DELADDR, RTM_GETROUTE, RTM_NEWROUTE, RTM_DELROUTE]

/-- C7: when unpacking a batch, every message whose header type code
is not recognized is skipped — it contributes no element and causes
no error — while the recognized messages in the batch are still
dispatched: the result of `unpackMessages` on any batch equals its
result on the sub-batch of recognized messages. -/
theorem unpackMessages_skips_unrecognized (msgs : List NlMessage) :
    unpackMessages msgs
      = unpackMessages (msgs.filter fun nm => recognizedType nm.typ) := by
  induction msgs with
  | nil => rfl
  | cons nm rest ih =>
    by_cases h : recognizedType nm.typ
    · obtain ⟨r, hr⟩ := Option.isSome_iff_exists.mp (unpackOne_isSome nm h)
      rw [List.filter_cons_of_pos (by simpa using h)]
      show unpackMessages (nm :: rest) = unpackMessages (nm :: _)
      rw [unpackMessages, unpackMessages, hr]
      cases r with
      | ok m => rw [ih]
      | err e => rfl
      | crash => rfl
    · rw [List.filter_cons_of_neg (by simpa using h), unpackMessages,
        unpackOne_eq_none nm (by simpa using h), ih]

/-! ## Claim C9 -/

/-- A raw message that does not make the unpack loop return early: it
is either skipped (unrecognized code) or decodes successfully. -/
def dispatchOk (nm : NlMessage) : Bool :=
  match unpackOne nm with
  | none => true
  | some (.ok _) => true
  | some (.err _) => false
  | some .crash => false

/-- C9: if a message in a received batch fails its variant's
`UnmarshalBinary`, `unpackMessages` returns a nil message slice
together with that error: messages earlier in the batch that had
already decoded successfully (or were skipped) are discarded rather
than returned alongside the error. -/
theorem unpackMessages_error_discards_earlier
    (pre post : List NlMessage) (nm : NlMessage) (e : RtErr)
    (hpre : ∀ x ∈ pre, dispatchOk x = true)
    (hnm : unpackOne nm = some (.err e)) :
    unpackMessages (pre ++ nm :: post) = .fail [] e := by
  induction pre with
  | nil =>
    rw [List.nil_append, unpackMessages, hnm]
  | cons x pre ih =>
    have hx := hpre x (List.mem_cons_self x pre)
    have hrest : ∀ y ∈ pre, dispatchOk y = true :=
      fun y hy => hpre y (List.mem_cons_of_mem x hy)
    rw [List.cons_append, unpackMessages]
    cases hux : unpackOne x with
    | none => exact ih hrest
    | some r =>
      cases r with
      | ok m => rw [ih hrest]
      | err e2 => simp [dispatchOk, hux] at hx
      | crash => simp [dispatchOk, hux] at hx

/-- Witness for C9: a batch whose first message is a valid Route
message, second an unrecognized type, third a too-short Route message
(which errors), fourth a valid Address message; the unpacker returns
the empty slice plus the Route error. -/
theorem unpackMessages_error_discards_earlier_witness :
    (∀ x ∈ [⟨RTM_NEWROUTE, List.replicate 12 0⟩,
            (⟨3, [1, 2, 3]⟩ : NlMessage)], dispatchOk x = true)
      ∧ unpackOne ⟨RTM_NEWROUTE, [1, 2]⟩ = some (.err .invalidRouteMessage)
      ∧ unpackMessages
          [⟨RTM_NEWROUTE, List.replicate 12 0⟩, ⟨3, [1, 2, 3]⟩,
           ⟨RTM_NEWROUTE, [1, 2]⟩, ⟨RTM_NEWADDR, List.replicate 8 0⟩]
          = .fail [] .invalidRouteMessage :=
  ⟨by decide, by decide,
    unpackMessages_error_discards_earlier
      [⟨RTM_NEWROUTE, List.replicate 12 0⟩, ⟨3, [1, 2, 3]⟩]
      [⟨RTM_NEWADDR, List.replicate 8 0⟩]
      ⟨RTM_NEWROUTE, [1, 2]⟩ .invalidRouteMessage (by decide) (by decide)⟩

/-! ## Claim C8 -/

/-- Structural form of the MPLS decode loop (recursion on the list
instead of a cursor), used to relate `decodeMPLS` to its declarative
description. -/
def decodeMPLSL : Bytes → List MPLSNextHop
  | b0 :: b1 :: b2 :: b3 :: rest =>
    let e := unpackMPLSWord
      (b0.val * 16777216 + b1.val * 65536 + b2.val * 256 + b3.val)
    if e.bottomOfStack then [e] else e :: decodeMPLSL rest
  | _ => []

theorem decodeMPLSL_of_short (l : Bytes) (h : l.length < 4) :
    decodeMPLSL l = [] := by
  rcases l with _ | ⟨a, _ | ⟨b, _ | ⟨c, _ | ⟨d, r⟩⟩⟩⟩
  · rfl
  · rfl
  · rfl
  · rfl
  · simp [List.length_cons] at h
    omega

theorem words4_of_short (l : Bytes) (h : l.length < 4) : words4 l = [] := by
  rcases l with _ | ⟨a, _ | ⟨b, _ | ⟨c, _ | ⟨d, r⟩⟩⟩⟩
  · rfl
  · rfl
  · rfl
  · rfl
  · simp [List.length_cons] at h
    omega

theorem decodeMPLSL_spec : (l : Bytes) →
    decodeMPLSL l = takeThrough (·.bottomOfStack) ((words4 l).map unpackMPLSWord)
  | [] => rfl
  | [_] => rfl
  | [_, _] => rfl
  | [_, _, _] => rfl
  | b0 :: b1 :: b2 :: b3 :: rest => by
    rw [decodeMPLSL, words4, List.map_cons, takeThrough]
    rw [decodeMPLSL_spec rest]

theorem decodeMPLSF_eq_decodeMPLSL (fuel : Nat) :
    ∀ (b : Bytes) (i : Nat), b.length ≤ i + fuel →
      decodeMPLSF fuel b i = decodeMPLSL (b.drop i) := by
  induction fuel with
  | zero =>
    intro b i h
    rw [decodeMPLSF, List.drop_eq_nil_of_le (by omega)]
    rfl
  | succ f ih =>
    intro b i h
    by_cases h4 : b.length < i + 4
    · rw [decodeMPLSF, if_pos h4,
        decodeMPLSL_of_short _ (by simp [List.length_drop]; omega)]
    · push_neg at h4
      have hi0 : i < b.length := by omega
      have hi1 : i + 1 < b.length := by omega
      have hi2 : i + 2 < b.length := by omega
      have hi3 : i + 3 < b.length := by omega
      have hdrop : b.drop i
          = b[i] :: b[i + 1] :: b[i + 2] :: b[i + 3] :: b.drop (i + 4) := by
        rw [List.drop_eq_getElem_cons hi0, List.drop_eq_getElem_cons hi1,
          List.drop_eq_getElem_cons hi2, List.drop_eq_getElem_cons hi3]
      rw [decodeMPLSF, if_neg (by omega), hdrop, decodeMPLSL]
      simp only [List.getD_eq_getElem b 0 hi0, List.getD_eq_getElem b 0 hi1,
        List.getD_eq_getElem b 0 hi2, List.getD_eq_getElem b 0 hi3]
      split
      · rfl
      · rw [ih b (i + 4) (by omega)]

/-- C8: the MPLS label-stack decoder (modelled from the spec, as its
source is absent from `src/`) reads consecutive 4-byte big-endian
words, unpacks the label / traffic-class / bottom-of-stack / TTL bit
fields, and appends entries until a word with the bottom-of-stack bit
set has been consumed (inclusive) or the attribute's bytes are
exhausted: its result is exactly `takeThrough bottomOfStack` of the
unpacked complete words of the buffer. -/
theorem decodeMPLS_spec (b : Bytes) :
    decodeMPLS b
      = takeThrough (·.bottomOfStack) ((words4 b).map unpackMPLSWord) := by
  rw [decodeMPLS, decodeMPLSF_eq_decodeMPLSL b.length b 0 (by omega),
    List.drop_zero, decodeMPLSL_spec]

/-! ## Claim C6 -/

/-- An attribute whose (masked) type code is outside the Route
vocabulary falls through the switch and changes nothing. -/
theorem route_decodeStep_unknown (a : RouteAttributes) (u : NAttr)
    (h : decoderType u.typ ∉ ([RTA_UNSPEC, RTA_DST, RTA_OIF, RTA_GATEWAY,
      RTA_PRIORITY, RTA_PREFSRC, RTA_METRICS, RTA_MULTIPATH, RTA_TABLE,
      RTA_MARK, RTA_EXPIRES] : List Nat)) :
    a.decodeStep u = .ok a := by
  simp only [List.mem_cons, List.not_mem_nil, or_false, not_or,
    RTA_UNSPEC, RTA_DST, RTA_OIF, RTA_GATEWAY, RTA_PRIORITY, RTA_PREFSRC,
    RTA_METRICS, RTA_MULTIPATH, RTA_TABLE, RTA_MARK, RTA_EXPIRES] at h
  obtain ⟨h0, h1, h4, h5, h6, h7, h8, h9, h15, h16, h23⟩ := h
  simp [RouteAttributes.decodeStep, RTA_UNSPEC, RTA_DST, RTA_OIF, RTA_GATEWAY,
    RTA_PRIORITY, RTA_PREFSRC, RTA_METRICS, RTA_MULTIPATH, RTA_TABLE,
    RTA_MARK, RTA_EXPIRES, h0, h1, h4, h5, h6, h7, h8, h9, h15, h16, h23]

theorem neigh_decodeStep_unknown (a : NeighAttributes) (u : NAttr)
    (h : u.typ ∉ ([0, NDA_DST, NDA_LLADDR, NDA_CACHEINFO, NDA_IFINDEX] : List Nat)) :
    a.decodeStep u = .ok a := by
  simp only [List.mem_cons, List.not_mem_nil, or_false, not_or,
    NDA_DST, NDA_LLADDR, NDA_CACHEINFO, NDA_IFINDEX] at h
  obtain ⟨h0, h1, h2, h3, h8⟩ := h
  simp [NeighAttributes.decodeStep, NDA_DST, NDA_LLADDR, NDA_CACHEINFO,
    NDA_IFINDEX, h0, h1, h2, h3, h8]

theorem address_decodeStep_unknown (a : AddressAttributes) (u : NAttr)
    (h : u.typ ∉ ([0, ifaAddress, ifaLocal, ifaLabel, ifaBroadcast, ifaAnycast,
      ifaCacheInfo, ifaMulticast, ifaFlags] : List Nat)) :
    a.decodeStep u = .ok a := by
  simp only [List.mem_cons, List.not_mem_nil, or_false, not_or,
    ifaAddress, ifaLocal, ifaLabel, ifaBroadcast, ifaAnycast,
    ifaCacheInfo, ifaMulticast, ifaFlags] at h
  obtain ⟨h0, h1, h2, h3, h4, h5, h6, h7, h8⟩ := h
  simp [AddressAttributes.decodeStep, ifaAddress, ifaLocal, ifaLabel,
    ifaBroadcast, ifaAnycast, ifaCacheInfo, ifaMulticast, ifaFlags,
    h0, h1, h2, h3, h4, h5, h6, h7, h8]

theorem route_decodeList_insert_unknown
    (l1 : List NAttr) (a : RouteAttributes) (l2 : List NAttr) (u : NAttr)
    (h : decoderType u.typ ∉ ([RTA_UNSPEC, RTA_DST, RTA_OIF, RTA_GATEWAY,
      RTA_PRIORITY, RTA_PREFSRC, RTA_METRICS, RTA_MULTIPATH, RTA_TABLE,
      RTA_MARK, RTA_EXPIRES] : List Nat)) :
    RouteAttributes.decodeList a (l1 ++ u :: l2)
      = RouteAttributes.decodeList a (l1 ++ l2) := by
  induction l1 generalizing a with
  | nil =>
    rw [List.nil_append, List.nil_append, RouteAttributes.decodeList,
      route_decodeStep_unknown a u h, Res.bind_ok]
  | cons x l1 ih =>
    rw [List.cons_append, List.cons_append, RouteAttributes.decodeList,
      RouteAttributes.decodeList]
    cases a.decodeStep x with
    | ok a2 => rw [Res.bind_ok, Res.bind_ok, ih a2]
    | err e => rfl
    | crash => rfl

theorem neigh_decodeList_insert_unknown
    (l1 : List NAttr) (a : NeighAttributes) (l2 : List NAttr) (u : NAttr)
    (h : u.typ ∉ ([0, NDA_DST, NDA_LLADDR, NDA_CACHEINFO, NDA_IFINDEX] : List Nat)) :
    NeighAttributes.decodeList a (l1 ++ u :: l2)
      = NeighAttributes.decodeList a (l1 ++ l2) := by
  induction l1 generalizing a with
  | nil =>
    rw [List.nil_append, List.nil_append, NeighAttributes.decodeList,
      neigh_decodeStep_unknown a u h, Res.bind_ok]
  | cons x l1 ih =>
    rw [List.cons_append, List.cons_append, NeighAttributes.decodeList,
      NeighAttributes.decodeList]
    cases a.decodeStep x with
    | ok a2 => rw [Res.bind_ok, Res.bind_ok, ih a2]
    | err e => rfl
    | crash => rfl

theorem address_decodeList_insert_unknown
    (l1 : List NAttr) (a : AddressAttributes) (l2 : List NAttr) (u : NAttr)
    (h : u.typ ∉ ([0, ifaAddress, ifaLocal, ifaLabel, ifaBroadcast, ifaAnycast,
      ifaCacheInfo, ifaMulticast, ifaFlags] : List Nat)) :
    AddressAttributes.decodeList a (l1 ++ u :: l2)
      = AddressAttributes.decodeList a (l1 ++ l2) := by
  induction l1 generalizing a with
  | nil =>
    rw [List.nil_append, List.nil_append, AddressAttributes.decodeList,
      address_decodeStep_unknown a u h, Res.bind_ok]
  | cons x l1 ih =>
    rw [List.cons_append, List.cons_append, AddressAttributes.decodeList,
      AddressAttributes.decodeList]
    cases a.decodeStep x with
    | ok a2 => rw [Res.bind_ok, Res.bind_ok, ih a2]
    | err e => rfl
    | crash => rfl

/-- C6: for each variant's attribute decoder, an attribute whose type
code is outside the variant's known vocabulary is ignored: decoding a
list with the unknown attribute inserted anywhere gives exactly the
result of decoding the list without it (so it never causes an error
and leaves all decoded fields as if it were absent).  Stated for the
Route, Neighbor and Address decoders over parsed attribute lists, and
additionally for the byte-level `UnmarshalBinary` of Neighbor and
Address over well-formed serialized TLV lists. -/
theorem unknown_attribute_codes_skipped :
    (∀ (a : RouteAttributes) (l1 l2 : List NAttr) (u : NAttr),
      decoderType u.typ ∉ ([RTA_UNSPEC, RTA_DST, RTA_OIF, RTA_GATEWAY,
        RTA_PRIORITY, RTA_PREFSRC, RTA_METRICS, RTA_MULTIPATH, RTA_TABLE,
        RTA_MARK, RTA_EXPIRES] : List Nat) →
      RouteAttributes.decodeList a (l1 ++ u :: l2)
        = RouteAttributes.decodeList a (l1 ++ l2))
    ∧ (∀ (a : NeighAttributes) (l1 l2 : List NAttr) (u : NAttr),
      u.typ ∉ ([0, NDA_DST, NDA_LLADDR, NDA_CACHEINFO, NDA_IFINDEX] : List Nat) →
      NeighAttributes.decodeList a (l1 ++ u :: l2)
        = NeighAttributes.decodeList a (l1 ++ l2))
    ∧ (∀ (a : AddressAttributes) (l1 l2 : List NAttr) (u : NAttr),
      u.typ ∉ ([0, ifaAddress, ifaLocal, ifaLabel, ifaBroadcast, ifaAnycast,
        ifaCacheInfo, ifaMulticast, ifaFlags] : List Nat) →
      AddressAttributes.decodeList a (l1 ++ u :: l2)
        = AddressAttributes.decodeList a (l1 ++ l2))
    ∧ (∀ (a : NeighAttributes) (l1 l2 : List NAttr) (u : NAttr),
      u.typ ∉ ([0, NDA_DST, NDA_LLADDR, NDA_CACHEINFO, NDA_IFINDEX] : List Nat) →
      (∀ x ∈ l1 ++ u :: l2, x.data.length + 4 ≤ 65535 ∧ x.typ ≤ 65535) →
      NeighAttributes.unmarshalBinary a (serializeAttrs (l1 ++ u :: l2))
        = NeighAttributes.unmarshalBinary a (serializeAttrs (l1 ++ l2)))
    ∧ (∀ (a : AddressAttributes) (l1 l2 : List NAttr) (u : NAttr),
      u.typ ∉ ([0, ifaAddress, ifaLocal, ifaLabel, ifaBroadcast, ifaAnycast,
        ifaCacheInfo, ifaMulticast, ifaFlags] : List Nat) →
      (∀ x ∈ l1 ++ u :: l2, x.data.length + 4 ≤ 65535 ∧ x.typ ≤ 65535) →
      AddressAttributes.unmarshalBinary a (serializeAttrs (l1 ++ u :: l2))
        = AddressAttributes.unmarshalBinary a (serializeAttrs (l1 ++ l2))) := by
  refine ⟨fun a l1 l2 u h => route_decodeList_insert_unknown l1 a l2 u h,
    fun a l1 l2 u h => neigh_decodeList_insert_unknown l1 a l2 u h,
    fun a l1 l2 u h => address_decodeList_insert_unknown l1 a l2 u h,
    fun a l1 l2 u h hwf => ?_, fun a l1 l2 u h hwf => ?_⟩
  · have hwf2 : ∀ x ∈ l1 ++ l2, x.data.length + 4 ≤ 65535 ∧ x.typ ≤ 65535 := by
      intro x hx
      refine hwf x ?_
      rcases List.mem_append.mp hx with hx | hx
      · exact List.mem_append.mpr (Or.inl hx)
      · exact List.mem_append.mpr (Or.inr (List.mem_cons_of_mem u hx))
    rw [NeighAttributes.unmarshalBinary, NeighAttributes.unmarshalBinary,
      parseAttrs_serializeAttrs _ hwf, parseAttrs_serializeAttrs _ hwf2,
      Res.bind_ok, Res.bind_ok,
      neigh_decodeList_insert_unknown l1 a l2 u h]
  · have hwf2 : ∀ x ∈ l1 ++ l2, x.data.length + 4 ≤ 65535 ∧ x.typ ≤ 65535 := by
      intro x hx
      refine hwf x ?_
      rcases List.mem_append.mp hx with hx | hx
      · exact List.mem_append.mpr (Or.inl hx)
      · exact List.mem_append.mpr (Or.inr (List.mem_cons_of_mem u hx))
    rw [AddressAttributes.unmarshalBinary, AddressAttributes.unmarshalBinary,
      parseAttrs_serializeAttrs _ hwf, parseAttrs_serializeAttrs _ hwf2,
      Res.bind_ok, Res.bind_ok,
      address_decodeList_insert_unknown l1 a l2 u h]

/-- Witness for C6: a concrete unknown attribute (code 200) inserted
between known attributes of each vocabulary. -/
theorem unknown_attribute_codes_skipped_witness :
    RouteAttributes.decodeList {} ([⟨RTA_DST, [10, 0, 0, 1]⟩] ++ ⟨200, [1, 2]⟩ :: [⟨RTA_OIF, put32 5⟩])
        = RouteAttributes.decodeList {} ([⟨RTA_DST, [10, 0, 0, 1]⟩] ++ [⟨RTA_OIF, put32 5⟩])
      ∧ NeighAttributes.decodeList {} ([⟨NDA_DST, [10, 0, 0, 1]⟩] ++ ⟨200, [1, 2]⟩ :: [])
          = NeighAttributes.decodeList {} ([⟨NDA_DST, [10, 0, 0, 1]⟩] ++ [])
      ∧ AddressAttributes.decodeList {} ([] ++ ⟨200, [1, 2]⟩ :: [⟨ifaAddress, [10, 0, 0, 1]⟩])
          = AddressAttributes.decodeList {} ([] ++ [⟨ifaAddress, [10, 0, 0, 1]⟩])
      ∧ NeighAttributes.unmarshalBinary {}
            (serializeAttrs ([⟨NDA_DST, [10, 0, 0, 1]⟩] ++ ⟨200, [1, 2]⟩ :: []))
          = NeighAttributes.unmarshalBinary {} (serializeAttrs ([⟨NDA_DST, [10, 0, 0, 1]⟩] ++ []))
      ∧ AddressAttributes.unmarshalBinary {}
            (serializeAttrs ([] ++ ⟨200, [1, 2]⟩ :: [⟨ifaAddress, [10, 0, 0, 1]⟩]))
          = AddressAttributes.unmarshalBinary {} (serializeAttrs ([] ++ [⟨ifaAddress, [10, 0, 0, 1]⟩])) :=
  ⟨unknown_attribute_codes_skipped.1 {} _ _ _ (by decide),
    unknown_attribute_codes_skipped.2.1 {} _ _ _ (by decide),
    unknown_attribute_codes_skipped.2.2.1 {} _ _ _ (by decide),
    unknown_attribute_codes_skipped.2.2.2.1 {} _ _ _ (by decide) (by decide),
    unknown_attribute_codes_skipped.2.2.2.2 {} _ _ _ (by decide) (by decide)⟩

/-! ## Claim C5 -/

/-- The 16-byte in-memory (IPv4-mapped) representation of `10.0.0.1`,
as `net.IPv4` builds it. -/
def mappedV4 : Bytes := [0, 0, 0, 0, 0, 0, 0, 0, 0, 0, 255, 255, 10, 0, 0, 1]

/-- C5 counterexample: the claim states that every IP-valued
attribute decoder accepts exactly the widths 4 and 16 and that
marshal never emits the 16-byte in-memory representation of an IPv4
address.  The Address variant violates both: its decoder rejects a
16-byte `IFA_LOCAL` value with the invalid-attribute error, and its
`MarshalBinary` emits a stored IPv4-mapped 16-byte address verbatim
(the re-parsed address attribute carries all 16 bytes even though
`To4` recognizes it as an IPv4 address). -/
theorem addressAttributes_ip_width_counterexample :
    AddressAttributes.unmarshalBinary {} (serializeAttrs [⟨ifaLocal, mappedV4⟩])
        = .err .invalidAddressMessageAttr
      ∧ (ipTo4 mappedV4).isSome
      ∧ parseAttrs (AddressAttributes.marshalBinary {address := mappedV4})
          = .ok [⟨0, [0, 0]⟩, ⟨ifaAddress, mappedV4⟩, ⟨ifaLocal, []⟩,
                 ⟨ifaBroadcast, []⟩, ⟨ifaAnycast, []⟩, ⟨ifaMulticast, []⟩,
                 ⟨ifaFlags, [0, 0, 0, 0]⟩] := by
  refine ⟨by decide, by decide, by decide⟩

theorem ipTo4_length (ip v : Bytes) (h : ipTo4 ip = some v) : v.length = 4 := by
  rw [ipTo4] at h
  split at h
  · cases h
    omega
  · split at h
    · cases h
      simp [List.length_drop]
      omega
    · cases h

/-- C5 amended: in the Route variant the claim holds.  Marshal: a
present Dst/Src/Gateway is emitted as one attribute whose value is 4
bytes whenever `To4` recognizes an IPv4 address (so never the 16-byte
in-memory IPv4 form) and 16 bytes only for a genuine IPv6 address;
decode: those attributes accept exactly the widths 4 and 16 and any
other width yields the invalid-route-attribute error.  The Address
variant diverges: its local and broadcast decoders reject width 16. -/
theorem route_ip_attribute_widths :
    (∀ ip : Bytes, ip.length = 4 ∨ ip.length = 16 →
      ∀ t, t = RTA_DST ∨ t = RTA_PREFSRC ∨ t = RTA_GATEWAY →
        ∃ d : Bytes, ipSeg t (some ip) = [⟨t, d⟩]
          ∧ (d.length = 4 ∨ d.length = 16)
          ∧ ((ipTo4 ip).isSome → d.length = 4)
          ∧ (d.length = 16 → ipTo4 d = none))
    ∧ (∀ (a : RouteAttributes) (d : Bytes), d.length = 4 ∨ d.length = 16 →
        RouteAttributes.decodeList a [⟨RTA_DST, d⟩] = .ok {a with dst := some d}
        ∧ RouteAttributes.decodeList a [⟨RTA_PREFSRC, d⟩] = .ok {a with src := some d}
        ∧ RouteAttributes.decodeList a [⟨RTA_GATEWAY, d⟩] = .ok {a with gateway := some d})
    ∧ (∀ (a : RouteAttributes) (d : Bytes), d.length ≠ 4 → d.length ≠ 16 →
        RouteAttributes.decodeList a [⟨RTA_DST, d⟩] = .err .invalidRouteMessageAttr
        ∧ RouteAttributes.decodeList a [⟨RTA_PREFSRC, d⟩] = .err .invalidRouteMessageAttr
        ∧ RouteAttributes.decodeList a [⟨RTA_GATEWAY, d⟩] = .err .invalidRouteMessageAttr)
    ∧ (∀ (a : AddressAttributes) (d : Bytes), d.length = 16 →
        AddressAttributes.decodeList a [⟨ifaLocal, d⟩] = .err .invalidAddressMessageAttr
        ∧ AddressAttributes.decodeList a [⟨ifaBroadcast, d⟩] = .err .invalidAddressMessageAttr) := by
  refine ⟨?_, ?_, ?_, ?_⟩
  · intro ip hip t _
    refine ⟨_, rfl, ?_⟩
    cases h4 : ipTo4 ip with
    | some ip4 =>
      have hl := ipTo4_length ip ip4 h4
      simp [h4, hl]
    | none =>
      rcases hip with hip | hip
      · exfalso
        rw [ipTo4, if_pos hip] at h4
        cases h4
      · simp [h4, hip]
  · intro a d hd
    have h1 : ¬(d.length ≠ 4 ∧ d.length ≠ 16) := by omega
    refine ⟨?_, ?_, ?_⟩ <;>
      simp [RouteAttributes.decodeList, RouteAttributes.decodeStep, decoderType,
        RTA_UNSPEC, RTA_DST, RTA_PREFSRC, RTA_GATEWAY, h1, Res.bind]
  · intro a d h4 h16
    refine ⟨?_, ?_, ?_⟩ <;>
      simp [RouteAttributes.decodeList, RouteAttributes.decodeStep, decoderType,
        RTA_UNSPEC, RTA_DST, RTA_PREFSRC, RTA_GATEWAY, h4, h16]
  · intro a d hd
    have h4 : d.length ≠ 4 := by omega
    refine ⟨?_, ?_⟩ <;>
      simp [AddressAttributes.decodeList, AddressAttributes.decodeStep,
        ifaAddress, ifaLocal, ifaLabel, ifaBroadcast, ifaAnycast, h4]

/-- Witness for the amended C5 at concrete inputs: the mapped IPv4
address is emitted with 4 bytes, a 4-byte gateway decodes, a 3-byte
destination is rejected, and a 16-byte address-variant local is
rejected. -/
theorem route_ip_attribute_widths_witness :
    (∃ d : Bytes, ipSeg RTA_DST (some mappedV4) = [⟨RTA_DST, d⟩]
      ∧ (d.length = 4 ∨ d.length = 16)
      ∧ ((ipTo4 mappedV4).isSome → d.length = 4)
      ∧ (d.length = 16 → ipTo4 d = none))
    ∧ RouteAttributes.decodeList {} [⟨RTA_GATEWAY, [10, 0, 0, 1]⟩]
        = .ok {gateway := some [10, 0, 0, 1]}
    ∧ RouteAttributes.decodeList {} [⟨RTA_DST, [1, 2, 3]⟩]
        = .err .invalidRouteMessageAttr
    ∧ AddressAttributes.decodeList {} [⟨ifaLocal, mappedV4⟩]
        = .err .invalidAddressMessageAttr :=
  ⟨route_ip_attribute_widths.1 mappedV4 (by decide) RTA_DST (by simp),
    (route_ip_attribute_widths.2.1 {} [10, 0, 0, 1] (by decide)).2.2,
    (route_ip_attribute_widths.2.2.1 {} [1, 2, 3] (by decide) (by decide)).1,
    (route_ip_attribute_widths.2.2.2 {} mappedV4 (by decide)).1⟩

/-! ## Claim C2 -/

/-- C2 counterexample: the claim states that marshal-then-unmarshal
restores every constructed message of every variant.  The zero-valued
`AddressMessage` already fails: its `MarshalBinary` unconditionally
emits the address/local/broadcast/anycast/multicast attributes even
when nil (zero-width values), and `UnmarshalBinary` rejects the
zero-width address attribute, so the round trip returns the
invalid-attribute error instead of the original message. -/
theorem addressMessage_roundtrip_counterexample :
    AddressMessage.unmarshalBinary {} (AddressMessage.marshalBinary {})
        = .err .invalidAddressMessageAttr
      ∧ AddressMessage.unmarshalBinary {} (AddressMessage.marshalBinary {})
          ≠ .ok {} := by
  refine ⟨by decide, by decide⟩

theorem routeAttrs_decodeList_append (a : RouteAttributes) (l1 l2 : List NAttr) :
    RouteAttributes.decodeList a (l1 ++ l2)
      = (RouteAttributes.decodeList a l1).bind
          (fun a2 => RouteAttributes.decodeList a2 l2) := by
  induction l1 generalizing a with
  | nil => rfl
  | cons x l1 ih =>
    rw [List.cons_append, RouteAttributes.decodeList, RouteAttributes.decodeList]
    cases a.decodeStep x with
    | ok a2 => rw [Res.bind_ok, Res.bind_ok, ih a2]
    | err e => rfl
    | crash => rfl

theorem routeMetrics_decodeList_append (rm : RouteMetrics) (l1 l2 : List NAttr) :
    RouteMetrics.decodeList rm (l1 ++ l2)
      = (RouteMetrics.decodeList rm l1).bind
          (fun rm2 => RouteMetrics.decodeList rm2 l2) := by
  induction l1 generalizing rm with
  | nil => rfl
  | cons x l1 ih =>
    rw [List.cons_append, RouteMetrics.decodeList, RouteMetrics.decodeList]
    cases rm.decodeStep x with
    | ok rm2 => rw [Res.bind_ok, Res.bind_ok, ih rm2]
    | err e => rfl
    | crash => rfl

theorem RouteMetrics.decodeList_advMSS (rm0 : RouteMetrics) (v : Nat)
    (h : v < 4294967296) :
    RouteMetrics.decodeList rm0 (u32Seg RTAX_ADVMSS v)
      = .ok {rm0 with advMSS := if v = 0 then rm0.advMSS else v} := by
  by_cases h0 : v = 0
  · simp [u32Seg, h0, RouteMetrics.decodeList]
  · simp [u32Seg, h0, RouteMetrics.decodeList, RouteMetrics.decodeStep,
      decoderType, RTAX_ADVMSS, attrUint32, read32_put32, Nat.mod_eq_of_lt h]

theorem RouteMetrics.decodeList_features (rm0 : RouteMetrics) (v : Nat)
    (h : v < 4294967296) :
    RouteMetrics.decodeList rm0 (u32Seg RTAX_FEATURES v)
      = .ok {rm0 with features := if v = 0 then rm0.features else v} := by
  by_cases h0 : v = 0
  · simp [u32Seg, h0, RouteMetrics.decodeList]
  · simp [u32Seg, h0, RouteMetrics.decodeList, RouteMetrics.decodeStep,
      decoderType, RTAX_ADVMSS, RTAX_FEATURES, RTAX_INITCWND, RTAX_MTU,
      attrUint32, read32_put32, Nat.mod_eq_of_lt h]

theorem RouteMetrics.decodeList_initCwnd (rm0 : RouteMetrics) (v : Nat)
    (h : v < 4294967296) :
    RouteMetrics.decodeList rm0 (u32Seg RTAX_INITCWND v)
      = .ok {rm0 with initCwnd := if v = 0 then rm0.initCwnd else v} := by
  by_cases h0 : v = 0
  · simp [u32Seg, h0, RouteMetrics.decodeList]
  · simp [u32Seg, h0, RouteMetrics.decodeList, RouteMetrics.decodeStep,
      decoderType, RTAX_ADVMSS, RTAX_FEATURES, RTAX_INITCWND, RTAX_MTU,
      attrUint32, read32_put32, Nat.mod_eq_of_lt h]

theorem RouteMetrics.decodeList_mtu (rm0 : RouteMetrics) (v : Nat)
    (h : v < 4294967296) :
    RouteMetrics.decodeList rm0 (u32Seg RTAX_MTU v)
      = .ok {rm0 with mtu := if v = 0 then rm0.mtu else v} := by
  by_cases h0 : v = 0
  · simp [u32Seg, h0, RouteMetrics.decodeList]
  · simp [u32Seg, h0, RouteMetrics.decodeList, RouteMetrics.decodeStep,
      decoderType, RTAX_ADVMSS, RTAX_FEATURES, RTAX_INITCWND, RTAX_MTU,
      attrUint32, read32_put32, Nat.mod_eq_of_lt h]

/-- Decoding the encoded metric attributes restores the metrics. -/
theorem routeMetrics_decode_encode (rm : RouteMetrics)
    (h1 : rm.advMSS < 4294967296) (h2 : rm.features < 4294967296)
    (h3 : rm.initCwnd < 4294967296) (h4 : rm.mtu < 4294967296) :
    RouteMetrics.decodeList {} rm.encode = .ok rm := by
  rw [RouteMetrics.encode]
  simp only [List.append_assoc]
  rw [routeMetrics_decodeList_append, RouteMetrics.decodeList_advMSS _ _ h1, Res.bind_ok,
    routeMetrics_decodeList_append, RouteMetrics.decodeList_features _ _ h2, Res.bind_ok,
    routeMetrics_decodeList_append, RouteMetrics.decodeList_initCwnd _ _ h3, Res.bind_ok,
    RouteMetrics.decodeList_mtu _ _ h4]
  cases rm with
  | mk a f i m =>
    congr 1
    simp only [RouteMetrics.mk.injEq]
    refine ⟨?_, ?_, ?_, ?_⟩ <;> split <;> omega

/-- Well-formedness of a stored optional IP for a clean round trip:
absent, or held at wire width (4 bytes, or 16 bytes that `To4` does
not shorten). -/
abbrev wfIPo : Option Bytes → Prop
  | none => True
  | some ip => ip.length = 4 ∨ (ip.length = 16 ∧ ipTo4 ip = none)

theorem ipSeg_data (ip : Bytes)
    (h : ip.length = 4 ∨ (ip.length = 16 ∧ ipTo4 ip = none)) :
    (match ipTo4 ip with | none => ip | some ip4 => ip4) = ip := by
  rcases h with h4 | ⟨h16, hn⟩
  · simp [ipTo4, h4]
  · simp [hn]

theorem decodeList_ipSeg_dst (a0 : RouteAttributes) (o : Option Bytes)
    (h : wfIPo o) :
    RouteAttributes.decodeList a0 (ipSeg RTA_DST o)
      = .ok {a0 with dst := o.or a0.dst} := by
  cases o with
  | none => rfl
  | some ip =>
    have hw : ¬(ip.length ≠ 4 ∧ ip.length ≠ 16) := by
      rcases h with h4 | ⟨h16, _⟩ <;> omega
    rw [ipSeg, ipSeg_data ip h]
    simp [RouteAttributes.decodeList, RouteAttributes.decodeStep, decoderType,
      RTA_UNSPEC, RTA_DST, hw]

theorem decodeList_ipSeg_src (a0 : RouteAttributes) (o : Option Bytes)
    (h : wfIPo o) :
    RouteAttributes.decodeList a0 (ipSeg RTA_PREFSRC o)
      = .ok {a0 with src := o.or a0.src} := by
  cases o with
  | none => rfl
  | some ip =>
    have hw : ¬(ip.length ≠ 4 ∧ ip.length ≠ 16) := by
      rcases h with h4 | ⟨h16, _⟩ <;> omega
    rw [ipSeg, ipSeg_data ip h]
    simp [RouteAttributes.decodeList, RouteAttributes.decodeStep, decoderType,
      RTA_UNSPEC, RTA_DST, RTA_PREFSRC, hw]

theorem decodeList_ipSeg_gateway (a0 : RouteAttributes) (o : Option Bytes)
    (h : wfIPo o) :
    RouteAttributes.decodeList a0 (ipSeg RTA_GATEWAY o)
      = .ok {a0 with gateway := o.or a0.gateway} := by
  cases o with
  | none => rfl
  | some ip =>
    have hw : ¬(ip.length ≠ 4 ∧ ip.length ≠ 16) := by
      rcases h with h4 | ⟨h16, _⟩ <;> omega
    rw [ipSeg, ipSeg_data ip h]
    simp [RouteAttributes.decodeList, RouteAttributes.decodeStep, decoderType,
      RTA_UNSPEC, RTA_DST, RTA_PREFSRC, RTA_GATEWAY, hw]

theorem decodeList_u32Seg_outIface (a0 : RouteAttributes) (v : Nat)
    (h : v < 4294967296) :
    RouteAttributes.decodeList a0 (u32Seg RTA_OIF v)
      = .ok {a0 with outIface := if v = 0 then a0.outIface else v} := by
  by_cases h0 : v = 0
  · simp [u32Seg, h0, RouteAttributes.decodeList]
  · simp [u32Seg, h0, RouteAttributes.decodeList, RouteAttributes.decodeStep,
      decoderType, RTA_UNSPEC, RTA_DST, RTA_PREFSRC, RTA_GATEWAY, RTA_OIF,
      attrUint32, read32_put32, Nat.mod_eq_of_lt h]

theorem decodeList_u32Seg_priority (a0 : RouteAttributes) (v : Nat)
    (h : v < 4294967296) :
    RouteAttributes.decodeList a0 (u32Seg RTA_PRIORITY v)
      = .ok {a0 with priority := if v = 0 then a0.priority else v} := by
  by_cases h0 : v = 0
  · simp [u32Seg, h0, RouteAttributes.decodeList]
  · simp [u32Seg, h0, RouteAttributes.decodeList, RouteAttributes.decodeStep,
      decoderType, RTA_UNSPEC, RTA_DST, RTA_PREFSRC, RTA_GATEWAY, RTA_OIF,
      RTA_PRIORITY, attrUint32, read32_put32, Nat.mod_eq_of_lt h]

theorem decodeList_u32Seg_table (a0 : RouteAttributes) (v : Nat)
    (h : v < 4294967296) :
    RouteAttributes.decodeList a0 (u32Seg RTA_TABLE v)
      = .ok {a0 with table := if v = 0 then a0.table else v} := by
  by_cases h0 : v = 0
  · simp [u32Seg, h0, RouteAttributes.decodeList]
  · simp [u32Seg, h0, RouteAttributes.decodeList, RouteAttributes.decodeStep,
      decoderType, RTA_UNSPEC, RTA_DST, RTA_PREFSRC, RTA_GATEWAY, RTA_OIF,
      RTA_PRIORITY, RTA_TABLE, attrUint32, read32_put32, Nat.mod_eq_of_lt h]

theorem decodeList_u32Seg_mark (a0 : RouteAttributes) (v : Nat)
    (h : v < 4294967296) :
    RouteAttributes.decodeList a0 (u32Seg RTA_MARK v)
      = .ok {a0 with mark := if v = 0 then a0.mark else v} := by
  by_cases h0 : v = 0
  · simp [u32Seg, h0, RouteAttributes.decodeList]
  · simp [u32Seg, h0, RouteAttributes.decodeList, RouteAttributes.decodeStep,
      decoderType, RTA_UNSPEC, RTA_DST, RTA_PREFSRC, RTA_GATEWAY, RTA_OIF,
      RTA_PRIORITY, RTA_TABLE, RTA_MARK, attrUint32, read32_put32,
      Nat.mod_eq_of_lt h]

theorem decodeList_optU32Seg_expires (a0 : RouteAttributes) (o : Option Nat)
    (h : match o with | none => True | some v => v < 4294967296) :
    RouteAttributes.decodeList a0 (optU32Seg RTA_EXPIRES o)
      = .ok {a0 with expires := o.or a0.expires} := by
  cases o with
  | none => rfl
  | some v =>
    simp [optU32Seg, RouteAttributes.decodeList, RouteAttributes.decodeStep,
      decoderType, RTA_UNSPEC, RTA_DST, RTA_PREFSRC, RTA_GATEWAY, RTA_OIF,
      RTA_PRIORITY, RTA_TABLE, RTA_MARK, RTA_EXPIRES, attrUint32,
      read32_put32, Nat.mod_eq_of_lt h]

theorem mem_u32Seg {x : NAttr} {t v : Nat} (h : x ∈ u32Seg t v) :
    x = ⟨t, put32 v⟩ := by
  rw [u32Seg] at h
  split at h
  · simpa using h
  · simp at h

theorem metrics_encode_bounds (rm : RouteMetrics) :
    ∀ x ∈ rm.encode, x.data.length + 4 ≤ 65535 ∧ x.typ ≤ 65535 := by
  intro x hx
  rw [RouteMetrics.encode] at hx
  simp only [List.mem_append] at hx
  rcases hx with ((hx | hx) | hx) | hx <;>
    (rw [mem_u32Seg hx]; simp [RTAX_ADVMSS, RTAX_FEATURES, RTAX_INITCWND, RTAX_MTU])

theorem length_serializeAttrs_u32Seg (t v : Nat) :
    (serializeAttrs (u32Seg t v)).length ≤ 8 := by
  by_cases h0 : v = 0
  · simp [u32Seg, h0]
  · simp [u32Seg, h0, length_serializeAttr, padding4]

theorem length_serializeAttrs_append (l1 l2 : List NAttr) :
    serializeAttrs (l1 ++ l2) = serializeAttrs l1 ++ serializeAttrs l2 := by
  simp [serializeAttrs]

theorem metrics_serialized_length (rm : RouteMetrics) :
    (serializeAttrs rm.encode).length ≤ 32 := by
  rw [RouteMetrics.encode, length_serializeAttrs_append,
    length_serializeAttrs_append, length_serializeAttrs_append]
  have h1 := length_serializeAttrs_u32Seg RTAX_ADVMSS rm.advMSS
  have h2 := length_serializeAttrs_u32Seg RTAX_FEATURES rm.features
  have h3 := length_serializeAttrs_u32Seg RTAX_INITCWND rm.initCwnd
  have h4 := length_serializeAttrs_u32Seg RTAX_MTU rm.mtu
  simp only [List.length_append]
  omega

/-- Well-formedness of the optional metrics for a clean round trip:
absent, or all fields of `u32` width. -/
abbrev wfMetricsO : Option RouteMetrics → Prop
  | none => True
  | some rm => rm.advMSS < 4294967296 ∧ rm.features < 4294967296
      ∧ rm.initCwnd < 4294967296 ∧ rm.mtu < 4294967296

theorem decodeList_metricsSeg (a0 : RouteAttributes) (o : Option RouteMetrics)
    (h : wfMetricsO o) :
    RouteAttributes.decodeList a0 (metricsSeg o)
      = .ok {a0 with metrics := o.or a0.metrics} := by
  cases o with
  | none => rfl
  | some rm =>
    obtain ⟨h1, h2, h3, h4⟩ := h
    rw [metricsSeg, RouteAttributes.decodeList, RouteAttributes.decodeStep]
    simp only [decoderType, RTA_UNSPEC, RTA_DST, RTA_PREFSRC, RTA_GATEWAY,
      RTA_OIF, RTA_PRIORITY, RTA_TABLE, RTA_MARK, RTA_EXPIRES, RTA_METRICS]
    rw [parseAttrs_serializeAttrs _ (metrics_encode_bounds rm), Res.bind_ok,
      routeMetrics_decode_encode rm h1 h2 h3 h4]
    simp [RouteAttributes.decodeList]

theorem ipSeg_eq_nil {t : Nat} {o : Option Bytes} (h : ipSeg t o = []) :
    o = none := by
  cases o with
  | none => rfl
  | some ip => simp [ipSeg] at h

theorem u32Seg_eq_nil {t v : Nat} (h : u32Seg t v = []) : v = 0 := by
  by_cases h0 : v = 0
  · exact h0
  · simp [u32Seg, h0] at h

theorem optU32Seg_eq_nil {t : Nat} {o : Option Nat} (h : optU32Seg t o = []) :
    o = none := by
  cases o with
  | none => rfl
  | some v => simp [optU32Seg] at h

theorem metricsSeg_eq_nil {o : Option RouteMetrics} (h : metricsSeg o = []) :
    o = none := by
  cases o with
  | none => rfl
  | some rm => simp [metricsSeg] at h

/-- An empty encoded attribute list means every attribute field holds
its zero value. -/
theorem RouteAttributes.eq_default_of_encode_nil (a : RouteAttributes)
    (h : a.encode = []) : a = {} := by
  obtain ⟨d, s, g, oif, pr, tb, mk2, ex, me, mp⟩ := a
  rw [RouteAttributes.encode] at h
  simp only [List.append_assoc, List.append_eq_nil] at h
  obtain ⟨h1, h2, h3, h4, h5, h6, h7, h8, h9, h10⟩ := h
  have hd := ipSeg_eq_nil h1
  have hs := ipSeg_eq_nil h2
  have hg := ipSeg_eq_nil h3
  have ho := u32Seg_eq_nil h4
  have hp := u32Seg_eq_nil h5
  have htb := u32Seg_eq_nil h6
  have hmk := u32Seg_eq_nil h7
  have hex := optU32Seg_eq_nil h8
  have hme := metricsSeg_eq_nil h9
  have hmp : mp = [] := by
    cases mp with
    | nil => rfl
    | cons y ys => simp at h10
  simp only at hd hs hg ho hp htb hmk hex hme
  subst hd hs hg ho hp htb hmk hex hme hmp
  rfl

theorem mem_ipSeg_bound {x : NAttr} {t : Nat} {o : Option Bytes}
    (ho : wfIPo o) (ht : t ≤ 65535) (h : x ∈ ipSeg t o) :
    x.data.length + 4 ≤ 65535 ∧ x.typ ≤ 65535 := by
  cases o with
  | none => simp [ipSeg] at h
  | some ip =>
    rw [ipSeg, ipSeg_data ip ho] at h
    simp only [List.mem_singleton] at h
    subst h
    rcases ho with h4 | ⟨h16, _⟩ <;> simp <;> omega

theorem mem_optU32Seg {x : NAttr} {t : Nat} {o : Option Nat}
    (h : x ∈ optU32Seg t o) : ∃ v, o = some v ∧ x = ⟨t, put32 v⟩ := by
  cases o with
  | none => simp [optU32Seg] at h
  | some v =>
    simp only [optU32Seg, List.mem_singleton] at h
    exact ⟨v, rfl, h⟩

/-- Bounds needed by the TLV round trip for every attribute the Route
encoder emits (under the round-trip well-formedness hypotheses). -/
theorem RouteAttributes.encode_bounds (a : RouteAttributes)
    (hd : wfIPo a.dst) (hs : wfIPo a.src) (hg : wfIPo a.gateway)
    (hmp : a.multipath = []) :
    ∀ x ∈ a.encode, x.data.length + 4 ≤ 65535 ∧ x.typ ≤ 65535 := by
  intro x hx
  rw [RouteAttributes.encode, hmp] at hx
  simp only [List.length_nil, List.mem_append, List.append_nil,
    Nat.lt_irrefl, if_false] at hx
  rcases hx with ((((((((hx | hx) | hx) | hx) | hx) | hx) | hx) | hx) | hx)
  · exact mem_ipSeg_bound hd (by simp [RTA_DST]) hx
  · exact mem_ipSeg_bound hs (by simp [RTA_PREFSRC]) hx
  · exact mem_ipSeg_bound hg (by simp [RTA_GATEWAY]) hx
  · rw [mem_u32Seg hx]
    simp [RTA_OIF]
  · rw [mem_u32Seg hx]
    simp [RTA_PRIORITY]
  · rw [mem_u32Seg hx]
    simp [RTA_TABLE]
  · rw [mem_u32Seg hx]
    simp [RTA_MARK]
  · obtain ⟨v, -, hx⟩ := mem_optU32Seg hx
    rw [hx]
    simp [RTA_EXPIRES]
  · cases hme : a.metrics with
    | none =>
      rw [hme] at hx
      simp [metricsSeg] at hx
    | some rm =>
      rw [hme] at hx
      simp only [metricsSeg, List.mem_singleton] at hx
      subst hx
      have := metrics_serialized_length rm
      constructor
      · simpa using by omega
      · simp [RTA_METRICS]

/-- Decoding the encoded Route attribute list restores the attributes
(under the round-trip well-formedness hypotheses). -/
theorem routeAttrs_decode_encode (a : RouteAttributes)
    (hd : wfIPo a.dst) (hs : wfIPo a.src) (hg : wfIPo a.gateway)
    (ho : a.outIface < 4294967296) (hp : a.priority < 4294967296)
    (ht : a.table < 4294967296) (hm : a.mark < 4294967296)
    (he : match a.expires with | none => True | some v => v < 4294967296)
    (hme : wfMetricsO a.metrics) (hmp : a.multipath = []) :
    RouteAttributes.decodeList {} a.encode = .ok a := by
  obtain ⟨d, s, g, oif, pr, tb, mk2, ex, me, mp⟩ := a
  simp only at hd hs hg ho hp ht hm he hme hmp
  subst hmp
  rw [RouteAttributes.encode]
  simp only [List.length_nil, Nat.lt_irrefl, if_false, List.append_nil,
    List.append_assoc]
  rw [routeAttrs_decodeList_append, decodeList_ipSeg_dst _ _ hd, Res.bind_ok,
    routeAttrs_decodeList_append, decodeList_ipSeg_src _ _ hs, Res.bind_ok,
    routeAttrs_decodeList_append, decodeList_ipSeg_gateway _ _ hg, Res.bind_ok,
    routeAttrs_decodeList_append, decodeList_u32Seg_outIface _ _ ho, Res.bind_ok,
    routeAttrs_decodeList_append, decodeList_u32Seg_priority _ _ hp, Res.bind_ok,
    routeAttrs_decodeList_append, decodeList_u32Seg_table _ _ ht, Res.bind_ok,
    routeAttrs_decodeList_append, decodeList_u32Seg_mark _ _ hm, Res.bind_ok,
    routeAttrs_decodeList_append, decodeList_optU32Seg_expires _ _ he, Res.bind_ok,
    decodeList_metricsSeg _ _ hme]
  congr 1
  simp only [Option.or_none, RouteAttributes.mk.injEq, true_and, and_true]
  refine ⟨?_, ?_, ?_, ?_⟩ <;> split <;> omega

/-- C2 amended: the all-variants round-trip fails (see the
counterexample), but it holds for the Route variant whenever the
message is storable on the wire: header bytes in `u8`/`u32` range, IP
attributes held at wire width (4 bytes, or 16 bytes not shortened by
`To4`), scalar attributes in `u32` range, and no multipath (whose
encoder is broken — claim C4). -/
theorem routeMessage_roundtrip (m : RouteMessage)
    (hf : m.family < 256) (hdl : m.dstLength < 256) (hsl : m.srcLength < 256)
    (hts : m.tos < 256) (htb : m.table < 256) (hpro : m.protocol < 256)
    (hsc : m.scope < 256) (hty : m.typ < 256) (hfl : m.flags < 4294967296)
    (hd : wfIPo m.attributes.dst) (hs : wfIPo m.attributes.src)
    (hg : wfIPo m.attributes.gateway)
    (ho : m.attributes.outIface < 4294967296)
    (hpr : m.attributes.priority < 4294967296)
    (hta : m.attributes.table < 4294967296)
    (hmk : m.attributes.mark < 4294967296)
    (he : match m.attributes.expires with | none => True | some v => v < 4294967296)
    (hme : wfMetricsO m.attributes.metrics)
    (hmp : m.attributes.multipath = []) :
    RouteMessage.unmarshalBinary {} m.marshalBinary = .ok m := by
  obtain ⟨f, dl, sl, ts, tb, pro, sc, ty, fl, attrs⟩ := m
  simp only at hf hdl hsl hts htb hpro hsc hty hfl hd hs hg ho hpr hta hmk he hme hmp
  by_cases hE : attrs.encode = []
  · have hAm : attrs = {} := RouteAttributes.eq_default_of_encode_nil _ hE
    rw [RouteMessage.marshalBinary]
    simp only
    rw [hE, serializeAttrs_nil, List.append_nil, RouteMessage.unmarshalBinary]
    rw [if_neg (by simp), if_neg (by simp)]
    congr 1
    simp only [RouteMessage.mk.injEq]
    refine ⟨?_, ?_, ?_, ?_, ?_, ?_, ?_, ?_, ?_, ?_⟩
    all_goals first
      | exact hAm.symm
      | (simp [byte_val, read32_put32]; try omega)
  · have hserne : (serializeAttrs attrs.encode) ≠ [] := by
      intro hnil
      have hge := length_serializeAttrs_ge attrs.encode
      rw [hnil] at hge
      simp only [List.length_nil, Nat.le_zero] at hge
      exact hE (List.eq_nil_of_length_eq_zero hge)
    have hpos : 0 < (serializeAttrs attrs.encode).length :=
      List.length_pos.mpr hserne
    rw [RouteMessage.marshalBinary]
    simp only
    rw [RouteMessage.unmarshalBinary]
    rw [if_neg (by simp), if_pos (by simp +arith; exact hpos)]
    rw [List.drop_left' (by simp)]
    rw [parseAttrs_serializeAttrs _ (RouteAttributes.encode_bounds _ hd hs hg hmp),
      Res.bind_ok,
      routeAttrs_decode_encode _ hd hs hg ho hpr hta hmk he hme hmp,
      Res.bind_ok]
    congr 1
    simp only [RouteMessage.mk.injEq]
    refine ⟨?_, ?_, ?_, ?_, ?_, ?_, ?_, ?_, ?_, ?_⟩
    all_goals first
      | rfl
      | (simp [byte_val, List.append_assoc, read32_put32_append]; try omega)

/-- Witness for the amended C2: the spec's scenario-2 Route message
(Family 2, DstLength 8, Type 1, Dst `10.0.0.0`) extended with a
priority, an expiry and metrics, survives the round trip. -/
theorem routeMessage_roundtrip_witness :
    RouteMessage.unmarshalBinary {}
        (RouteMessage.marshalBinary
          { family := 2, dstLength := 8, typ := 1
            attributes := { dst := some [10, 0, 0, 0], priority := 7
                            expires := some 255
                            metrics := some {mtu := 1500} } })
      = .ok { family := 2, dstLength := 8, typ := 1
              attributes := { dst := some [10, 0, 0, 0], priority := 7
                              expires := some 255
                              metrics := some {mtu := 1500} } } :=
  routeMessage_roundtrip _ (by decide) (by decide) (by decide) (by decide)
    (by decide) (by decide) (by decide) (by decide) (by decide) (by decide)
    (by decide) (by decide) (by decide) (by decide) (by decide) (by decide)
    (by decide) (by decide) (by decide)

end Rtnetlink
